import Mathlib

/-!
# SteeringNeighborhood: motion model and goal test

A shallow embedding of `include/utils_path/generic/SteeringNeighborhood.hpp`.

* `double` is an ordered field `α`; the `<cmath>` functions, `M_PI` and
  `MathHelper::AngleClamp` are the fields of `MathOps α`, so every definition below is
  computable and can be instantiated with the real functions (`realMath`).
* `int` is `Int` (the source stays far from the 32 bit bounds: steering angles are
  degrees bounded by `max_steer`); the `char&` out-parameter `custom` is narrowed with
  `toChar`.
* The template parameters and the static members inherited from
  `NonHolonomicNeighborhood` are the fields of `Config`.
* Nodes are an inductive type; the `prev` pointer is `PrevPtr`, which is null, a node of
  the search's `NodeType`, or an object of another dynamic type (on which the
  `dynamic_cast` of `advance` yields null).
* Reference out-parameters of `advance` are threaded through as a record `Out`; the
  `throw` is the `error` case of `Except`.
-/

namespace lib_path

/-- Values of `SteeringMoves::AllowedMoves`. -/
def SteeringMoves.FORWARD : Int := 3

/-- Values of `SteeringMoves::AllowedMoves`. -/
def SteeringMoves.FORWARD_BACKWARD : Int := 6

/-- The library functions the source applies to `double`s: `std::sin`, `std::cos`,
`std::tan`, `std::atan2`, `hypot`, the square root inside Eigen's `norm()`, the constant
`M_PI`, and `MathHelper::AngleClamp` (its definition is not part of the file). -/
structure MathOps (α : Type) where
  sin : α → α
  cos : α → α
  tan : α → α
  atan2 : α → α → α
  hypot : α → α → α
  sqrt : α → α
  pi : α
  AngleClamp : α → α

/-- Template parameters of `SteeringNeighborhood` followed by the static members it
takes from `NonHolonomicNeighborhood` with `using Parent::...` (`resolution`,
`distance_step`, `distance_step_pixel`), whose values are set outside this file. -/
structure Config (α : Type) where
  distance : Int
  steer_steps : Int
  steer_step_deg : Int
  max_steer : Int
  la : Int
  moves : Int
  reversed : Bool
  straight_dir_switch : Int
  resolution : α
  distance_step : α
  distance_step_pixel : α

/-- Narrowing of an `int` to the `char` out-parameter `custom`: `char` is the signed 8 bit
type of the x86-64 ABI and the conversion wraps modulo 256. -/
def toChar (v : Int) : Int := (v + 128) % 256 - 128

mutual
/-- A `SteeringNode`: pose `x, y, theta`, `steering_angle` in degrees, driving direction
`forward`, lock counter `custom`, search `depth`, and the back-reference `prev`. -/
inductive SteeringNode (α : Type) : Type
  | mk (x y theta : α) (steering_angle : Int) (forward : Bool) (custom : Int) (depth : Int)
      (prev : PrevPtr α)
/-- The `prev` pointer of a node: null, a node of the `NodeType` of the search, or a
non-null object whose dynamic type is not `NodeType` (it still has a position). -/
inductive PrevPtr (α : Type) : Type
  | null
  | node (n : SteeringNode α)
  | other (x y : α)
end

namespace SteeringNode

variable {α : Type}

def x : SteeringNode α → α
  | mk x _ _ _ _ _ _ _ => x

def y : SteeringNode α → α
  | mk _ y _ _ _ _ _ _ => y

def theta : SteeringNode α → α
  | mk _ _ theta _ _ _ _ _ => theta

def steering_angle : SteeringNode α → Int
  | mk _ _ _ s _ _ _ _ => s

def forward : SteeringNode α → Bool
  | mk _ _ _ _ f _ _ _ => f

def custom : SteeringNode α → Int
  | mk _ _ _ _ _ c _ _ => c

def depth : SteeringNode α → Int
  | mk _ _ _ _ _ _ d _ => d

def prev : SteeringNode α → PrevPtr α
  | mk _ _ _ _ _ _ _ p => p

end SteeringNode

/-- Position read through a non-null `prev` pointer (`reference->prev->x`, `->y`). -/
def PrevPtr.pos {α : Type} : PrevPtr α → Option (α × α)
  | .null => none
  | .node n => some (n.x, n.y)
  | .other x y => some (x, y)

/-- The reference out-parameters of `advance`. -/
structure Out (α : Type) where
  x_ : α
  y_ : α
  theta_ : α
  forward_ : Bool
  steering_angle_ : Int
  custom : Int

/-- Outcome of the `for` loop of `advance` (lines 239-254). -/
inductive RunIn where
  | passed
  | rejected
  | castFailed
  deriving DecidableEq, Repr

namespace SteeringNeighborhood

variable {α : Type} [LinearOrderedField α]

/-- Base-class constant `Parent::STEER_ANGLE`.
Modelled from the spec: `NonHolonomicNeighborhood.hpp` is not part of the file; the base
class is instantiated with `max_steer` as its steering-angle argument and the spec states
that the steering angle is clamped to `±max_steer`. -/
def STEER_ANGLE (c : Config α) : Int := c.max_steer

/-- Base-class constant `Parent::SIZE`.
Modelled from the spec: `NonHolonomicNeighborhood.hpp` is not part of the file; the spec
iterates over 3 or 6 action indices depending on `moves`. -/
def SIZE (c : Config α) : Int := c.moves

def MAX_STEER_ANGLE (c : Config α) : Int := STEER_ANGLE c

def STEER_DELTA (c : Config α) : Int := c.steer_step_deg

def LA (c : Config α) : α := (c.la : α) / 100

def PENALTY_BACKWARD : α := 2.5

def PENALTY_TURN : α := 4

/-- The loop `for(straight_parts = 0; straight_parts < straight_dir_switch - 1; ...)`
of `advance`, by recursion on the number of iterations left; the argument is
`test->prev`. A null `prev` and a steering ancestor give `return -1`, a failed
`dynamic_cast` gives the `throw`. -/
def straightRunIn : Nat → PrevPtr α → RunIn
  | 0, _ => .passed
  | _ + 1, .null => .rejected
  | _ + 1, .other _ _ => .castFailed
  | n + 1, .node test =>
    if |test.steering_angle| > 0 then .rejected else straightRunIn n test.prev

/-- The `switch(i)` of `advance` (lines 168-200): the steering angle before clamping, or
`none` where the source returns `-1`. `int delta = STEER_DELTA * step` is the product of
two integers; indices outside `1, 2, 4, 5` take the `default` label of the keep case. -/
def selectSteering (c : Config α) (reference : SteeringNode α) (i step : Int) : Option Int :=
  let delta : Int := STEER_DELTA c * step
  if i = 1 ∨ i = 4 then
    if step = 0 then none
    else if reference.steering_angle ≤ -MAX_STEER_ANGLE c then none
    else some (reference.steering_angle - delta)
  else if i = 2 ∨ i = 5 then
    if step = 0 then none
    else if reference.steering_angle ≥ MAX_STEER_ANGLE c then none
    else some (reference.steering_angle + delta)
  else
    if step > 0 then none else some reference.steering_angle

/-- Lines 202-206 of `advance`. -/
def clampSteering (c : Config α) (steering_angle : Int) : Int :=
  if steering_angle > MAX_STEER_ANGLE c then MAX_STEER_ANGLE c
  else if steering_angle < -MAX_STEER_ANGLE c then -MAX_STEER_ANGLE c
  else steering_angle

/-- Lines 211-226 and 266-295 of `advance`: the direction sign, the turning radius, the
pose update and the cost, once `forward_`, `steering_angle_` and `custom` are fixed. The
test `std::abs(steering_angle) < 1e-10` on the `int` angle is `steering_angle = 0`; the
radius is only used for a non-zero angle. -/
def finish (M : MathOps α) (c : Config α) (reference : SteeringNode α)
    (forward_ : Bool) (steering_angle : Int) (direction_switch : Bool) (custom : Int) :
    α × Out α :=
  let dir0 : α := if forward_ then 1 else -1
  let dir : α := if c.reversed then dir0 * -1 else dir0
  let r_world : α := LA c / M.tan ((steering_angle : α) / 180 * M.pi)
  let ds_world : α := c.distance_step * dir
  let ds_map : α := c.distance_step_pixel * dir
  let r_map : α := r_world / c.resolution
  let dtheta : α := if steering_angle = 0 then 0 else ds_world / r_world
  let dx : α :=
    if steering_angle = 0 then ds_map * M.cos reference.theta
    else r_map * (M.sin (reference.theta + dtheta) - M.sin reference.theta)
  let dy : α :=
    if steering_angle = 0 then ds_map * M.sin reference.theta
    else r_map * (-M.cos (reference.theta + dtheta) + M.cos reference.theta)
  let cost0 : α := c.distance_step_pixel
  let cost1 : α := if forward_ then cost0 else cost0 * PENALTY_BACKWARD
  let cost2 : α := if direction_switch then cost1 * PENALTY_TURN else cost1
  (cost2 * 1,
    { x_ := reference.x + dx
      y_ := reference.y + dy
      theta_ := M.AngleClamp (reference.theta + dtheta)
      forward_ := forward_
      steering_angle_ := steering_angle
      custom := custom })

/-- The function `SteeringNeighborhood::advance`. The result is the returned cost together
with the final values of the out-parameters (`o` holds their values on entry), or `error`
for the `throw std::logic_error("cannot cast prev")`. The tail of the function, from the
pose update on (lines 266-295), is `finish`; the `switch` and the clamping are
`selectSteering` and `clampSteering`; the `for` loop is `straightRunIn`. -/
def advance (M : MathOps α) (c : Config α) (reference : SteeringNode α) (i step : Int)
    (o : Out α) (map_rotation : α) : Except String (α × Out α) :=
  let initial : Prop := reference.depth < 1
  if initial ∧ (i ≠ 0 ∧ i ≠ 5) then .ok (-1, o) else
  let max_steer_angle_for_turn : Int := 0
  if reference.custom > 0 ∧ |reference.steering_angle| > max_steer_angle_for_turn then
    .ok (-1, o) else
  if c.reversed = false ∧ initial ∧ i > 3 then .ok (-1, o) else
  if c.reversed = false ∧ initial ∧ i = 3 then
    if step ≠ 0 then .ok (-1, o) else
    let ds : α := -LA c
    let ds_map : α := ds / c.resolution
    let dx : α := ds_map * M.cos reference.theta
    let dy : α := ds_map * M.sin reference.theta
    .ok (|ds_map| * PENALTY_BACKWARD,
      { x_ := reference.x + dx
        y_ := reference.y + dy
        theta_ := reference.theta
        forward_ := false
        steering_angle_ := 0
        custom := 0 })
  else
  match selectSteering c reference i step with
  | none => .ok (-1, o)
  | some unclamped =>
    let steering_angle : Int := clampSteering c unclamped
    let forward_ : Bool := decide (i < 3)
    let o1 : Out α := { o with forward_ := forward_, steering_angle_ := steering_angle }
    let direction_switch : Bool := reference.forward != forward_
    if direction_switch then
      if reference.custom > 0 then .ok (-1, o1)
      else if |steering_angle| > max_steer_angle_for_turn then .ok (-1, o1)
      else
        match straightRunIn (c.straight_dir_switch - 1).toNat reference.prev with
        | .rejected => .ok (-1, o1)
        | .castFailed => .error "cannot cast prev"
        | .passed =>
          .ok (finish M c reference forward_ steering_angle direction_switch
            (toChar (c.straight_dir_switch - 1)))
    else
      .ok (finish M c reference forward_ steering_angle direction_switch
        (if reference.custom > 0 then toChar (reference.custom - 1) else 0))

/-- The function `SteeringNeighborhood::isGoal`. The Eigen vectors `p`, `r`, `g` and
`project` are written by components; `squaredNorm`, `dot` and `norm` are spelled out. -/
def isGoal (M : MathOps α) (c : Config α) (goal reference : SteeringNode α) : Bool :=
  let delta_rot : α :=
    M.atan2 (M.sin (goal.theta - reference.theta)) (M.cos (goal.theta - reference.theta))
  let angle_threshold : α := M.pi / 8
  if |delta_rot| > angle_threshold then false else
  if c.reversed = true ∧ reference.custom > 0 then false else
  let shifted : Prop := c.reversed = true ∧ reference.forward = false
  let eff_gx : α :=
    if shifted then goal.x + -M.cos goal.theta * LA c / c.resolution else goal.x
  let eff_gy : α :=
    if shifted then goal.y + -M.sin goal.theta * LA c / c.resolution else goal.y
  let delta : Int := 4 * c.distance
  if |eff_gx - reference.x| > (delta : α) ∨ |eff_gy - reference.y| > (delta : α) then false
  else
  let cell_dist : α := M.hypot (eff_gx - reference.x) (eff_gy - reference.y)
  let dist : α := cell_dist * c.resolution
  if dist < 0.05 then true else
  match reference.prev.pos with
  | none => false
  | some (prev_x, prev_y) =>
    let px : α := prev_x * c.resolution
    let py : α := prev_y * c.resolution
    let rx : α := reference.x * c.resolution
    let ry : α := reference.y * c.resolution
    let gx : α := eff_gx * c.resolution
    let gy : α := eff_gy * c.resolution
    let l2 : α := (px - rx) * (px - rx) + (py - ry) * (py - ry)
    let line_distance : α :=
      if l2 ≤ 0.0001 then M.sqrt ((gx - px) * (gx - px) + (gy - py) * (gy - py))
      else
        let t0 : α := ((gx - px) * (rx - px) + (gy - py) * (ry - py)) / l2
        let t : α := max 0 (min 1 t0)
        let projx : α := px + t * (rx - px)
        let projy : α := py + t * (ry - py)
        M.sqrt ((gx - projx) * (gx - projx) + (gy - projy) * (gy - projy))
    decide (line_distance < 0.1)

/-- What `iterateFreeNeighbors` asks of its `Map& map` argument (the class is not part
of the file): the rotation of the underlying map, `contains`, `isFreeOrUnknown`, and
`lookup`, which yields a handle of type `ν` to the canonical node or `none` for `NULL`. -/
structure MapOps (α ν : Type) where
  rotation : α
  contains : α → α → Bool
  isFreeOrUnknown : α → α → α → α → Bool
  lookup : α → α → α → Int → Bool → Option ν

/-- The fields `iterateFreeNeighbors` assigns to the node `n` (lines 326-334). -/
structure NodeWrite (α : Type) where
  custom : Int
  depth : Int
  steering_angle : Int
  x : α
  y : α
  theta : α
  forward : Bool

/-- The body of the inner loop of `iterateFreeNeighbors` for one pair `(i, step)` of
`unsigned` counters: `some (n, w)` when the fields `w` are assigned to the node `n`,
`none` when the body leaves every node as it is. `added n cost` tells whether
`algo.processNeighbor(reference, n, cost)` returns `PR_ADDED_TO_OPEN_LIST`; `o` holds the
indeterminate initial values of the locals passed to `advance`. -/
def neighborWrite {ν : Type} (M : MathOps α) (c : Config α) (map : MapOps α ν)
    (added : ν → α → Bool) (reference : SteeringNode α) (i step : Nat) (o : Out α) :
    Except String (Option (ν × NodeWrite α)) :=
  match advance M c reference (i : Int) (step : Int) o map.rotation with
  | .error e => .error e
  | .ok (cost, out) =>
    if cost < 0 then .ok none
    else if map.contains out.x_ out.y_ then
      let free_or_unknown : Bool :=
        map.isFreeOrUnknown reference.x reference.y out.x_ out.y_
      let can_be_used : Bool := free_or_unknown
      if can_be_used then
        match map.lookup out.x_ out.y_ out.theta_ out.steering_angle_ out.forward_ with
        | none => .ok none
        | some n =>
          if added n cost then
            .ok (some (n,
              { custom := out.custom
                depth := reference.depth + 1
                steering_angle := out.steering_angle_
                x := out.x_
                y := out.y_
                theta := out.theta_
                forward := out.forward_ }))
          else .ok none
      else .ok none
    else .ok none

/-- The real-number reading of the library functions: `atan2 y x` is the argument of
`x + y i`, `hypot` and `sqrt` are exact.
Modelled from the spec: `MathHelper::AngleClamp` is not part of the file; the spec has
the heading after `advance` normalised to `(-pi, pi]`. -/
noncomputable def realMath : MathOps ℝ where
  sin := Real.sin
  cos := Real.cos
  tan := Real.tan
  atan2 := fun y x => Complex.arg ⟨x, y⟩
  hypot := fun a b => Real.sqrt (a * a + b * b)
  sqrt := Real.sqrt
  pi := Real.pi
  AngleClamp := fun t => toIocMod Real.two_pi_pos (-Real.pi) t

/-- A chain of `n` predecessors of the node type, all with zero steering, driving
forward along the x axis. -/
def straightChain (α : Type) [LinearOrderedField α] : Nat → PrevPtr α
  | 0 => .null
  | n + 1 => .node (.mk 0 0 0 0 true 0 (n + 1) (straightChain α n))

/-- The `j`-th pointer met when walking `prev` from `p`: `p` itself for `j = 0`; the walk
stays at null or at an object of another type once it meets one. -/
def ancestor : Nat → PrevPtr α → PrevPtr α
  | 0, p => p
  | j + 1, .node n => ancestor j n.prev
  | _ + 1, .null => .null
  | _ + 1, .other x y => .other x y

/-- The configuration of the scenario of the spec: `distance = 10`, `steer_steps = 3`,
`steer_step_deg = 5`, `max_steer = 30`, `la = 250`, `FORWARD_BACKWARD`, not reversed,
`straight_dir_switch = round(250 / 10) = 25`, with `resolution = 0.1` and a distance
step of 10 cells, that is 1 map unit. -/
def scenario (α : Type) [LinearOrderedField α] : Config α where
  distance := 10
  steer_steps := 3
  steer_step_deg := 5
  max_steer := 30
  la := 250
  moves := SteeringMoves.FORWARD_BACKWARD
  reversed := false
  straight_dir_switch := 25
  resolution := 0.1
  distance_step := 1
  distance_step_pixel := 10

/-- The root node of the scenario: depth 0 at the origin, heading 0, zero steering,
driving forward, unlocked, without predecessor. -/
def root (α : Type) [LinearOrderedField α] : SteeringNode α :=
  .mk 0 0 0 0 true 0 0 .null

/-- Some initial content of the out-parameters. -/
def out0 (α : Type) [LinearOrderedField α] : Out α :=
  { x_ := 0, y_ := 0, theta_ := 0, forward_ := true, steering_angle_ := 0, custom := 0 }

/-- The steering angle an action produces, in the words of the spec: keep actions reuse
the parent's angle, right (left) actions subtract (add) `steer_step_deg * step`, and the
result is clamped to `±max_steer`. -/
def resultingSteering (c : Config α) (reference : SteeringNode α) (i step : Int) : Int :=
  let raw : Int :=
    if i = 1 ∨ i = 4 then reference.steering_angle - c.steer_step_deg * step
    else if i = 2 ∨ i = 5 then reference.steering_angle + c.steer_step_deg * step
    else reference.steering_angle
  max (-c.max_steer) (min c.max_steer raw)

/-- The effective goal point, in the words of the spec: the goal position, shifted by
`-LA / resolution` along the goal heading when `reversed` is set and the reference node
does not drive forward. -/
def effectiveGoal (M : MathOps α) (c : Config α) (goal reference : SteeringNode α) : α × α :=
  if c.reversed = true ∧ reference.forward = false then
    (goal.x - M.cos goal.theta * (LA c / c.resolution),
     goal.y - M.sin goal.theta * (LA c / c.resolution))
  else (goal.x, goal.y)

/-- A node inside the straight run after a direction switch: zero steering, `custom = 2`,
depth 3, two straight predecessors. -/
def lockedParent (α : Type) [LinearOrderedField α] : SteeringNode α :=
  .mk 0 0 0 0 true 2 3 (straightChain α 2)

/-- A forward-driving, unlocked, straight node with `n` straight predecessors. -/
def straightParent (α : Type) [LinearOrderedField α] (n : Nat) : SteeringNode α :=
  .mk 0 0 0 0 true 0 (n + 1) (straightChain α n)

/-- The scenario with `straight_dir_switch` overridden to 257. -/
def scenario257 (α : Type) [LinearOrderedField α] : Config α :=
  { scenario α with straight_dir_switch := 257 }

/-- The scenario searched backwards from the goal (`reversed = true`). -/
def scenarioReversed (α : Type) [LinearOrderedField α] : Config α :=
  { scenario α with reversed := true }

/-- The reversed scenario with a look-ahead of 5 map units (`la = 500`, so 50 cells at
`resolution = 0.1`, `straight_dir_switch = round(500 / 10) = 50`). -/
def scenarioReversedLong (α : Type) [LinearOrderedField α] : Config α :=
  { scenario α with reversed := true, la := 500, straight_dir_switch := 50 }

/-- A goal node at the origin with heading 0. -/
def goalNode (α : Type) [LinearOrderedField α] : SteeringNode α :=
  .mk 0 0 0 0 true 0 0 .null

/-- A locked node (`custom = 1`) at the pose of `goalNode`. -/
def lockedAtGoal (α : Type) [LinearOrderedField α] : SteeringNode α :=
  .mk 0 0 0 0 true 1 5 (straightChain α 4)

/-- A backward-driving, unlocked node 50 cells behind `goalNode` with the same heading. -/
def behindGoal (α : Type) [LinearOrderedField α] : SteeringNode α :=
  .mk (-50) 0 0 0 false 0 1 (.node (goalNode α))

/-- A map without obstacles whose `lookup` hands out the node number 7, with rotation 0. -/
def openMap (α : Type) [LinearOrderedField α] : MapOps α Nat where
  rotation := 0
  contains := fun _ _ => true
  isFreeOrUnknown := fun _ _ _ _ => true
  lookup := fun _ _ _ _ _ => some 7

/-- The steering angle an action proposes, in the words of the steering-selection rule:
keep actions (`i` in `{0, 3}`) propose the parent's angle, right actions (`i` in `{1, 4}`)
propose `max(angle - steer_step_deg * step, -max_steer)`, left actions (`i` in `{2, 5}`)
propose `min(angle + steer_step_deg * step, max_steer)`. -/
def proposedSteering (c : Config α) (reference : SteeringNode α) (i step : Int) : Int :=
  if i = 1 ∨ i = 4 then max (reference.steering_angle - c.steer_step_deg * step) (-c.max_steer)
  else if i = 2 ∨ i = 5 then min (reference.steering_angle + c.steer_step_deg * step) c.max_steer
  else reference.steering_angle

/-- The rounding of `std::round`: to the nearest integer, halfway cases away from zero. -/
def cRound (q : ℚ) : Int :=
  if 0 ≤ q then ⌊q + 1 / 2⌋ else ⌈q - 1 / 2⌉

/-- The default template argument of `straight_dir_switch`:
`static_cast<int>(std::round((la / (double) distance)))`. -/
def defaultStraightDirSwitch (la distance : Int) : Int :=
  cRound ((la : ℚ) / (distance : ℚ))

/-- The scenario with a look-ahead of `la = 4`, for which the default
`straight_dir_switch = round(4 / 10)` is 0. -/
def scenarioShortLA (α : Type) [LinearOrderedField α] : Config α :=
  { scenario α with la := 4, straight_dir_switch := defaultStraightDirSwitch 4 10 }

/-- A straight, unlocked, forward-driving node of depth 1 whose predecessor is the root. -/
def firstChild (α : Type) [LinearOrderedField α] : SteeringNode α :=
  .mk 10 0 0 0 true 0 1 (.node (root α))

/-- An unlocked node of depth 1 whose stored steering angle, 40, exceeds the `max_steer`
of the scenario. -/
def steepParent (α : Type) [LinearOrderedField α] : SteeringNode α :=
  .mk 10 0 0 40 true 0 1 (.node (root α))

/-- A straight, unlocked, forward-driving node whose predecessor is an object of another
dynamic type. -/
def foreignParent (α : Type) [LinearOrderedField α] : SteeringNode α :=
  .mk 0 0 0 0 true 0 1 (.other 0 0)

/-- The sign of travel `dir` of `advance` (lines 212-215): `+1` for a forward edge and `-1`
for a backward edge, negated when the search is reversed. -/
def travelSign (c : Config α) (forward_ : Bool) : α :=
  (if forward_ then 1 else -1) * (if c.reversed then -1 else 1)

/-- The verdict of `processNeighbor`.
Modelled from the spec: the enumeration is declared in the base class, which is not part
of the file; the spec distinguishes `ADDED_TO_OPEN_LIST` from every other verdict. -/
inductive ProcessingResult where
  | PR_ADDED_TO_OPEN_LIST
  | PR_OTHER
  deriving DecidableEq, Repr

/-- What `iterateFreeNeighbors` asks of its `T& algo` argument (the class is not part of
the file): `processNeighbor(reference, n, cost)`, which takes the state `σ` of the driver
(open list, costs, back-references) to a new state and returns a verdict. The driver does
not assign the fields that `iterateFreeNeighbors` assigns. -/
structure Driver (α ν σ : Type) where
  processNeighbor : σ → SteeringNode α → ν → α → ProcessingResult × σ

/-- The node store seen by `iterateFreeNeighbors`: for every node handle the fields that
the function may assign. -/
abbrev NodeStore (α ν : Type) : Type := ν → NodeWrite α

/-- The assignments of lines 326-334 to the node `n` of the store. -/
def NodeStore.assign {α ν : Type} [DecidableEq ν] (st : NodeStore α ν) (n : ν)
    (w : NodeWrite α) : NodeStore α ν :=
  fun m => if m = n then w else st m

/-- The body of the inner loop of `iterateFreeNeighbors` for one pair `(i, step)`, on the
node store `st` and the driver state `s`: the store and the driver state after the body,
or `error` when `advance` throws (nothing has been assigned by then). `o` holds the
indeterminate initial values of the locals passed to `advance`. -/
def neighborStep {ν σ : Type} [DecidableEq ν] (M : MathOps α) (c : Config α)
    (map : MapOps α ν) (algo : Driver α ν σ) (reference : SteeringNode α) (i step : Nat)
    (o : Out α) (st : NodeStore α ν) (s : σ) : Except String (NodeStore α ν × σ) :=
  match advance M c reference (i : Int) (step : Int) o map.rotation with
  | .error e => .error e
  | .ok (cost, out) =>
    if cost < 0 then .ok (st, s)
    else if map.contains out.x_ out.y_ then
      let free_or_unknown : Bool :=
        map.isFreeOrUnknown reference.x reference.y out.x_ out.y_
      let can_be_used : Bool := free_or_unknown
      if can_be_used then
        match map.lookup out.x_ out.y_ out.theta_ out.steering_angle_ out.forward_ with
        | none => .ok (st, s)
        | some n =>
          match algo.processNeighbor s reference n cost with
          | (.PR_ADDED_TO_OPEN_LIST, s1) =>
            .ok (st.assign n
              { custom := out.custom
                depth := reference.depth + 1
                steering_angle := out.steering_angle_
                x := out.x_
                y := out.y_
                theta := out.theta_
                forward := out.forward_ }, s1)
          | (.PR_OTHER, s1) => .ok (st, s1)
      else .ok (st, s)
    else .ok (st, s)

/-- The pairs `(i, step)` in the order of the two `for` loops of `iterateFreeNeighbors`:
`i` below `SIZE`, `step` below `steer_steps` (both taken non-negative). -/
def loopPairs (c : Config α) : List (Nat × Nat) :=
  (List.range (SIZE c).toNat).flatMap fun i =>
    (List.range c.steer_steps.toNat).map fun step => (i, step)

/-- The function `SteeringNeighborhood::iterateFreeNeighbors` on the node store and the
driver state: the loop body `neighborStep` for every pair of `loopPairs` in turn. The
pointer `reference` is read through `deref`, which gives the node and its predecessor
chain as they stand in the current store and driver state; `o i step` are the initial
values of the locals of the body. A `throw` of `advance` ends the loop. -/
def iterateFreeNeighbors {ν σ : Type} [DecidableEq ν] (M : MathOps α) (c : Config α)
    (map : MapOps α ν) (algo : Driver α ν σ)
    (deref : NodeStore α ν → σ → SteeringNode α) (o : Nat → Nat → Out α)
    (st : NodeStore α ν) (s : σ) : Except String (NodeStore α ν × σ) :=
  (loopPairs c).foldlM
    (fun (acc : NodeStore α ν × σ) (p : Nat × Nat) =>
      neighborStep M c map algo (deref acc.1 acc.2) p.1 p.2 (o p.1 p.2) acc.1 acc.2)
    (st, s)

/-- A driver that adds every candidate to its open list and counts its calls. -/
def countingDriver (α : Type) [LinearOrderedField α] : Driver α Nat Nat where
  processNeighbor := fun s _ _ _ => (.PR_ADDED_TO_OPEN_LIST, s + 1)

/-- A node store in which every node is at the origin with all fields zero. -/
def emptyStore (α : Type) [LinearOrderedField α] : NodeStore α Nat :=
  fun _ => { custom := 0, depth := 0, steering_angle := 0, x := 0, y := 0, theta := 0,
             forward := true }

/-- Euclidean distance between two points of the plane, with the square root of `M`. -/
def pointDistance (M : MathOps α) (a b : α × α) : α :=
  M.sqrt ((a.1 - b.1) * (a.1 - b.1) + (a.2 - b.2) * (a.2 - b.2))

/-- A point in cell units scaled to map units (`resolution` map units per cell). -/
def scaledPoint (c : Config α) (a : α × α) : α × α :=
  (a.1 * c.resolution, a.2 * c.resolution)

/-- Squared length of the segment between `p` and `r`. -/
def segmentLength2 (p r : α × α) : α :=
  (p.1 - r.1) * (p.1 - r.1) + (p.2 - r.2) * (p.2 - r.2)

/-- The point `p + t (r - p)` of the line through `p` and `r`. -/
def segmentPoint (p r : α × α) (t : α) : α × α :=
  (p.1 + t * (r.1 - p.1), p.2 + t * (r.2 - p.2))

/-- The distance from `g` to the closed segment between `p` and `r`, in the words of the
spec: the distance from `g` to its projection on the line through `p` and `r`, with the
projection parameter clamped to `[0, 1]`. -/
def segmentDistance (M : MathOps α) (p r g : α × α) : α :=
  let t0 : α := ((g.1 - p.1) * (r.1 - p.1) + (g.2 - p.2) * (r.2 - p.2)) / segmentLength2 p r
  pointDistance M g (segmentPoint p r (max 0 (min 1 t0)))

/-- A goal node 0.97 cells ahead of the origin, heading 0. -/
def nearGoal (α : Type) [LinearOrderedField α] : SteeringNode α :=
  .mk 0.97 0 0 0 true 0 0 .null

/-- A node at the origin, heading 0, whose predecessor lies 0.05 cells behind it. -/
def creepingNode (α : Type) [LinearOrderedField α] : SteeringNode α :=
  .mk 0 0 0 0 true 0 2 (.node (.mk (-0.05) 0 0 0 true 0 1 .null))

/-- A goal node 5 cells ahead of the origin, heading 0. -/
def midGoal (α : Type) [LinearOrderedField α] : SteeringNode α :=
  .mk 5 0 0 0 true 0 0 .null

/-- The turning radius in cells, `r_map` of `advance` (lines 219 and 226):
`r_world / resolution` with `r_world = LA / tan(steering_angle / 180 * pi)`. -/
def turningRadius (M : MathOps α) (c : Config α) (steering_angle : Int) : α :=
  LA c / M.tan ((steering_angle : α) / 180 * M.pi) / c.resolution

/-- The heading change of a curved step, `dtheta` of `advance` (lines 223 and 274):
`ds_world / r_world` with `ds_world = distance_step * dir`. -/
def headingChange (M : MathOps α) (c : Config α) (steering_angle : Int) (forward_ : Bool) : α :=
  c.distance_step * travelSign c forward_ /
    (LA c / M.tan ((steering_angle : α) / 180 * M.pi))

/-- The turning centre of a curved step from the pose of `reference`, in the words of the
spec: `(x - r sin(theta), y + r cos(theta))` for the turning radius `r`. -/
def turningCentre (M : MathOps α) (c : Config α) (reference : SteeringNode α)
    (steering_angle : Int) : α × α :=
  (reference.x - turningRadius M c steering_angle * M.sin reference.theta,
   reference.y + turningRadius M c steering_angle * M.cos reference.theta)

/-! ## Lemmas on `advance` -/

/-- Every value `advance` returns is the sentinel `-1` or comes from `finish` on the
selected and clamped steering angle, with the conditions that let it through. -/
theorem advance_ok_cases (M : MathOps α) (c : Config α) (reference : SteeringNode α)
    (i step : Int) (o : Out α) (mr : α) (r : α × Out α)
    (h : advance M c reference i step o mr = .ok r) :
    r.1 = -1 ∨ ∃ u, selectSteering c reference i step = some u ∧
      ¬ (reference.custom > 0 ∧ |reference.steering_angle| > 0) ∧
      ((reference.forward != decide (i < 3)) = true →
        reference.custom ≤ 0 ∧ clampSteering c u = 0 ∧
        straightRunIn (c.straight_dir_switch - 1).toNat reference.prev = .passed) ∧
      r = finish M c reference (decide (i < 3)) (clampSteering c u)
        (reference.forward != decide (i < 3))
        (if (reference.forward != decide (i < 3)) = true
          then toChar (c.straight_dir_switch - 1)
          else if reference.custom > 0 then toChar (reference.custom - 1) else 0) := by
  rcases hs : selectSteering c reference i step with _ | u
  · unfold advance at h
    simp only [hs] at h
    split_ifs at h with h1 h2 h3 h4 h5
    all_goals try (simp only [Except.ok.injEq] at h; subst h; left; with_reducible rfl)
    exfalso; apply h1; refine ⟨h4.2.1, ?_, ?_⟩ <;> omega
  · by_cases hb : (reference.forward != decide (i < 3)) = true
    · rw [if_pos hb]
      rcases hr : straightRunIn (c.straight_dir_switch - 1).toNat reference.prev
      all_goals
        unfold advance at h
        simp only [hs, hr, if_pos hb] at h
        split_ifs at h with h1 h2 h3 h4 h5 h6 h7
      all_goals try (simp only [Except.ok.injEq] at h; subst h; left; with_reducible rfl)
      all_goals try (exfalso; apply h1; refine ⟨h4.2.1, ?_, ?_⟩ <;> omega)
      simp only [Except.ok.injEq] at h
      subst h
      exact Or.inr ⟨u, rfl, h2, fun _ => ⟨not_lt.mp h6, by simpa using h7, rfl⟩, rfl⟩
    · rw [if_neg hb]
      unfold advance at h
      simp only [hs, if_neg hb] at h
      split_ifs at h with h1 h2 h3 h4 h5 h6
      all_goals try (simp only [Except.ok.injEq] at h; subst h; left; with_reducible rfl)
      all_goals try (exfalso; apply h1; refine ⟨h4.2.1, ?_, ?_⟩ <;> omega)
      · simp only [Except.ok.injEq] at h
        subst h
        exact Or.inr ⟨u, rfl, h2, fun hb2 => absurd hb2 hb, by rw [if_pos h6]⟩
      · simp only [Except.ok.injEq] at h
        subst h
        exact Or.inr ⟨u, rfl, h2, fun hb2 => absurd hb2 hb, by rw [if_neg h6]⟩

omit [LinearOrderedField α] in
/-- The run-in loop passes exactly when each of the first `n` ancestors is a node of the
node type with zero steering. -/
theorem straightRunIn_passed_iff (n : Nat) (p : PrevPtr α) :
    straightRunIn n p = .passed ↔
      ∀ j : Nat, j < n → ∃ a, ancestor j p = .node a ∧ a.steering_angle = 0 := by
  induction n generalizing p with
  | zero => simp [straightRunIn]
  | succ n ih =>
    cases p with
    | null =>
      simp only [straightRunIn, reduceCtorEq, false_iff, not_forall]
      exact ⟨0, Nat.succ_pos n, by simp [ancestor]⟩
    | other x y =>
      simp only [straightRunIn, reduceCtorEq, false_iff, not_forall]
      exact ⟨0, Nat.succ_pos n, by simp [ancestor]⟩
    | node t =>
      simp only [straightRunIn]
      constructor
      · intro h j hj
        split_ifs at h with hs
        cases j with
        | zero => exact ⟨t, rfl, by simpa using hs⟩
        | succ j => exact (ih t.prev).mp h j (by omega)
      · intro h
        have h0 := h 0 (Nat.succ_pos n)
        simp only [ancestor, PrevPtr.node.injEq, exists_eq_left'] at h0
        rw [if_neg (by simp [h0])]
        exact (ih t.prev).mpr fun j hj => h (j + 1) (by omega)

omit [LinearOrderedField α] in
/-- The run-in loop throws only if one of the first `n` ancestors is not of the node
type. -/
theorem straightRunIn_castFailed (n : Nat) (p : PrevPtr α)
    (h : straightRunIn n p = .castFailed) :
    ∃ j : Nat, j < n ∧ ∃ x y, ancestor j p = .other x y := by
  induction n generalizing p with
  | zero => simp [straightRunIn] at h
  | succ n ih =>
    cases p with
    | null => simp [straightRunIn] at h
    | other x y => exact ⟨0, Nat.succ_pos n, x, y, rfl⟩
    | node t =>
      simp only [straightRunIn] at h
      split_ifs at h
      obtain ⟨j, hj, x, y, hxy⟩ := ih t.prev h
      exact ⟨j + 1, by omega, x, y, hxy⟩

theorem straightRunIn_straightChain (n m : Nat) (h : n ≤ m) :
    straightRunIn n (straightChain α m) = .passed := by
  induction n generalizing m with
  | zero => rfl
  | succ n ih =>
    cases m with
    | zero => omega
    | succ m =>
      simp only [straightChain, straightRunIn, SteeringNode.steering_angle, abs_zero,
        gt_iff_lt, lt_self_iff_false, if_false, SteeringNode.prev]
      exact ih m (by omega)

omit [LinearOrderedField α] in
/-- Where the `switch` selects an angle, the clamped angle of the source is the resulting
angle of the spec as soon as `max_steer` is not negative. -/
theorem clampSteering_eq_resultingSteering (c : Config α) (reference : SteeringNode α)
    (i step u : Int) (hs : selectSteering c reference i step = some u)
    (hm : 0 ≤ c.max_steer) :
    clampSteering c u = resultingSteering c reference i step := by
  unfold selectSteering at hs
  unfold clampSteering resultingSteering MAX_STEER_ANGLE STEER_ANGLE
  simp only [STEER_DELTA] at hs
  split_ifs at hs <;> simp only [Option.some.injEq] at hs <;> subst hs <;>
    simp only [*, if_true, if_false] <;> split_ifs <;> omega

omit [LinearOrderedField α] in
/-- A non-zero resulting angle of the spec is a non-zero clamped angle of the source. -/
theorem clampSteering_ne_zero (c : Config α) (reference : SteeringNode α)
    (i step u : Int) (hs : selectSteering c reference i step = some u)
    (hr : resultingSteering c reference i step ≠ 0) :
    clampSteering c u ≠ 0 := by
  by_cases hm : 0 ≤ c.max_steer
  · rw [clampSteering_eq_resultingSteering c reference i step u hs hm]
    exact hr
  · unfold clampSteering MAX_STEER_ANGLE STEER_ANGLE
    split_ifs <;> omega

omit [LinearOrderedField α] in
/-- The clamped angle lies within `±max_steer` when `max_steer` is not negative. -/
theorem clampSteering_range (c : Config α) (u : Int) (hm : 0 ≤ c.max_steer) :
    -c.max_steer ≤ clampSteering c u ∧ clampSteering c u ≤ c.max_steer := by
  unfold clampSteering MAX_STEER_ANGLE STEER_ANGLE
  split_ifs <;> omega

/-- A locked parent that is itself steering has every action rejected. -/
theorem advance_locked_steering (M : MathOps α) (c : Config α) (reference : SteeringNode α)
    (i step : Int) (o : Out α) (mr : α)
    (hc : reference.custom > 0) (hs : reference.steering_angle ≠ 0) :
    advance M c reference i step o mr = .ok (-1, o) := by
  have hl : reference.custom > 0 ∧ |reference.steering_angle| > 0 := ⟨hc, abs_pos.mpr hs⟩
  unfold advance
  simp only [if_pos hl]
  split_ifs <;> rfl

/-- A direction-switching action is rejected when the parent is locked, the clamped angle
is not zero, or the run-in loop rejects. -/
theorem advance_switch_rejected (M : MathOps α) (c : Config α) (reference : SteeringNode α)
    (i step : Int) (o : Out α) (mr : α)
    (hb : (reference.forward != decide (i < 3)) = true)
    (hrej : ∀ u, selectSteering c reference i step = some u →
      reference.custom > 0 ∨ clampSteering c u ≠ 0 ∨
      straightRunIn (c.straight_dir_switch - 1).toNat reference.prev = .rejected) :
    ∃ o1, advance M c reference i step o mr = .ok (-1, o1) := by
  rcases hs : selectSteering c reference i step with _ | u
  · unfold advance
    simp only [hs]
    split_ifs with h1 h2 h3 h4 h5
    all_goals first
      | exact ⟨_, rfl⟩
      | (exfalso; apply h1; refine ⟨h4.2.1, ?_, ?_⟩ <;> omega)
  · unfold advance
    simp only [hs, if_pos hb]
    rcases hrej u hs with hc | hc | hc
    · rw [if_pos hc]
      split_ifs with h1 h2 h3 h4 h5
      all_goals first
        | exact ⟨_, rfl⟩
        | (exfalso; apply h1; refine ⟨h4.2.1, ?_, ?_⟩ <;> omega)
    · rw [if_pos (abs_pos.mpr hc)]
      split_ifs with h1 h2 h3 h4 h5
      all_goals first
        | exact ⟨_, rfl⟩
        | (exfalso; apply h1; refine ⟨h4.2.1, ?_, ?_⟩ <;> omega)
    · simp only [hc]
      split_ifs with h1 h2 h3 h4 h5
      all_goals first
        | exact ⟨_, rfl⟩
        | (exfalso; apply h1; refine ⟨h4.2.1, ?_, ?_⟩ <;> omega)

/-- The cost computed by `finish`. -/
theorem finish_cost (M : MathOps α) (c : Config α) (reference : SteeringNode α)
    (f : Bool) (s : Int) (d : Bool) (cu : Int) :
    (finish M c reference f s d cu).1 =
      c.distance_step_pixel * (if f = false then 2.5 else 1) * (if d = true then 4 else 1) := by
  cases f <;> cases d <;> simp [finish, PENALTY_BACKWARD, PENALTY_TURN]

/-- An exception of `advance` comes from a failed cast in the run-in loop. -/
theorem advance_error (M : MathOps α) (c : Config α) (reference : SteeringNode α)
    (i step : Int) (o : Out α) (mr : α) (e : String)
    (h : advance M c reference i step o mr = .error e) :
    straightRunIn (c.straight_dir_switch - 1).toNat reference.prev = .castFailed := by
  rcases hs : selectSteering c reference i step with _ | u
  · unfold advance at h
    simp only [hs] at h
    split_ifs at h
  · rcases hr : straightRunIn (c.straight_dir_switch - 1).toNat reference.prev
    · exfalso
      unfold advance at h
      simp only [hs, hr] at h
      split_ifs at h
    · exfalso
      unfold advance at h
      simp only [hs, hr] at h
      split_ifs at h
    · rfl

/-- A value in the range of a signed 8 bit `char` is not changed by the narrowing. -/
theorem toChar_eq_self (v : Int) (h : -128 ≤ v ∧ v ≤ 127) : toChar v = v := by
  unfold toChar
  omega

/-- Evaluation of `advance` for the straight forward step on a straight parent with 24
straight predecessors. -/
theorem advance_straightParent_forward :
    advance realMath (scenario ℝ) (straightParent ℝ 24) 0 0 (out0 ℝ) 0 =
      .ok (finish realMath (scenario ℝ) (straightParent ℝ 24) true 0 false 0) := by
  rfl

/-- Evaluation of `advance` for the straight backward step on a straight parent with 24
straight predecessors: the direction switch passes the run-in loop. -/
theorem advance_straightParent_backward :
    advance realMath (scenario ℝ) (straightParent ℝ 24) 3 0 (out0 ℝ) 0 =
      .ok (finish realMath (scenario ℝ) (straightParent ℝ 24) false 0 true 24) := by
  rfl

/-! ## Lemmas on `isGoal` -/

/-- The first test of `isGoal`: a wrapped heading difference above `pi / 8` rejects. -/
theorem isGoal_heading (M : MathOps α) (c : Config α) (goal reference : SteeringNode α)
    (h : |M.atan2 (M.sin (goal.theta - reference.theta))
        (M.cos (goal.theta - reference.theta))| > M.pi / 8) :
    isGoal M c goal reference = false := by
  unfold isGoal
  simp only [if_pos h]

/-- Over the reals `atan2 (sin d) (cos d)` is `d` for `d` in `(-pi, pi]`. -/
theorem realMath_atan2_sin_cos (d : ℝ) (hd : d ∈ Set.Ioc (-Real.pi) Real.pi) :
    realMath.atan2 (realMath.sin d) (realMath.cos d) = d := by
  show Complex.arg ⟨Real.cos d, Real.sin d⟩ = d
  have h : (⟨Real.cos d, Real.sin d⟩ : ℂ) =
      Complex.cos (d : ℂ) + Complex.sin (d : ℂ) * Complex.I := by
    apply Complex.ext
    · simp [← Complex.ofReal_cos, ← Complex.ofReal_sin]
    · simp [← Complex.ofReal_cos, ← Complex.ofReal_sin]
  rw [h]
  exact Complex.arg_cos_add_sin_mul_I hd

/-- Evaluation of `advance` for the right turn `i = 1`, `step = 1` on `lockedParent`. -/
theorem advance_lockedParent_right :
    advance realMath (scenario ℝ) (lockedParent ℝ) 1 1 (out0 ℝ) 0 =
      .ok (finish realMath (scenario ℝ) (lockedParent ℝ) true (-5) false 1) := by
  rfl

/-- Evaluation of the loop body for the right turn of `lockedParent` on the open map with
a driver that adds every node to its open list: node 7 is assigned the steering angle
`-5`, `custom = 1` and depth 4. -/
theorem neighborWrite_lockedParent_right :
    ∃ w, neighborWrite realMath (scenario ℝ) (openMap ℝ) (fun _ _ => true)
        (lockedParent ℝ) 1 1 (out0 ℝ) = .ok (some (7, w)) ∧
      w.steering_angle = -5 ∧ w.custom = 1 ∧ w.depth = 4 := by
  have hadv : advance realMath (scenario ℝ) (lockedParent ℝ) ((1 : Nat) : Int)
      ((1 : Nat) : Int) (out0 ℝ) (openMap ℝ).rotation =
      .ok (finish realMath (scenario ℝ) (lockedParent ℝ) true (-5) false 1) := rfl
  have hc : ¬ (finish realMath (scenario ℝ) (lockedParent ℝ) true (-5) false 1).1 < 0 := by
    rw [finish_cost]; simp [scenario]
  refine ⟨{ custom := 1, depth := 4, steering_angle := -5,
            x := (finish realMath (scenario ℝ) (lockedParent ℝ) true (-5) false 1).2.x_,
            y := (finish realMath (scenario ℝ) (lockedParent ℝ) true (-5) false 1).2.y_,
            theta := (finish realMath (scenario ℝ) (lockedParent ℝ) true (-5) false 1).2.theta_,
            forward := true }, ?_, rfl, rfl, rfl⟩
  unfold neighborWrite
  rw [hadv]
  show (if (finish realMath (scenario ℝ) (lockedParent ℝ) true (-5) false 1).1 < 0
    then _ else _) = _
  rw [if_neg hc]
  rfl

omit [LinearOrderedField α] in
/-- Walking on from a null pointer stays at null. -/
theorem ancestor_null (j : Nat) : ancestor j (PrevPtr.null : PrevPtr α) = .null := by
  cases j <;> rfl

omit [LinearOrderedField α] in
/-- The run-in loop returns `-1` when it meets an absent predecessor among the first `n`
ancestors, whatever it met before. -/
theorem straightRunIn_rejected_of_null (n : Nat) (p : PrevPtr α) (j : Nat) (hj : j < n)
    (h : ancestor j p = .null) : straightRunIn n p = .rejected := by
  induction n generalizing p j with
  | zero => omega
  | succ n ih =>
    cases p with
    | null => rfl
    | other x y =>
      cases j <;> simp [ancestor] at h
    | node t =>
      cases j with
      | zero => simp [ancestor] at h
      | succ j =>
        simp only [straightRunIn]
        split_ifs
        · rfl
        · exact ih t.prev j (by omega) h

/-- The accepted edges of `advance`: the out-parameters in terms of the inputs. -/
theorem advance_accepted (M : MathOps α) (c : Config α) (reference : SteeringNode α)
    (i step : Int) (o : Out α) (mr : α) (r : α × Out α)
    (h : advance M c reference i step o mr = .ok r) (hr : 0 ≤ r.1) :
    ∃ u, selectSteering c reference i step = some u ∧
      ¬ (reference.custom > 0 ∧ |reference.steering_angle| > 0) ∧
      ((reference.forward != decide (i < 3)) = true →
        reference.custom ≤ 0 ∧ clampSteering c u = 0 ∧
        straightRunIn (c.straight_dir_switch - 1).toNat reference.prev = .passed) ∧
      r = finish M c reference (decide (i < 3)) (clampSteering c u)
        (reference.forward != decide (i < 3))
        (if (reference.forward != decide (i < 3)) = true
          then toChar (c.straight_dir_switch - 1)
          else if reference.custom > 0 then toChar (reference.custom - 1) else 0) := by
  rcases advance_ok_cases M c reference i step o mr r h with h1 | h2
  · rw [h1] at hr
    exact absurd hr (by norm_num)
  · exact h2

omit [LinearOrderedField α] in
/-- The flag `reference.forward != forward_` in terms of inequality. -/
theorem bne_eq_true_iff_ne (a b : Bool) : (a != b) = true ↔ b ≠ a := by
  cases a <;> cases b <;> simp

/-- Evaluation of `advance` for the locked parent's right turn, restated for the
invariant claim. -/
theorem advance_lockedParent_right_fields :
    (finish realMath (scenario ℝ) (lockedParent ℝ) true (-5) false 1).1 = 10 ∧
    (finish realMath (scenario ℝ) (lockedParent ℝ) true (-5) false 1).2.custom = 1 ∧
    (finish realMath (scenario ℝ) (lockedParent ℝ) true (-5) false 1).2.steering_angle_ = -5 := by
  refine ⟨?_, rfl, rfl⟩
  rw [finish_cost]
  simp [scenario]

/-- The position `finish` computes for a zero steering angle: a straight step of
`distance_step_pixel` cells along the parent heading, signed by `travelSign`. -/
theorem finish_straight (M : MathOps α) (c : Config α) (reference : SteeringNode α)
    (f : Bool) (d : Bool) (cu : Int) :
    (finish M c reference f 0 d cu).2.x_ =
        reference.x + c.distance_step_pixel * travelSign c f * M.cos reference.theta ∧
    (finish M c reference f 0 d cu).2.y_ =
        reference.y + c.distance_step_pixel * travelSign c f * M.sin reference.theta ∧
    (finish M c reference f 0 d cu).2.theta_ = M.AngleClamp (reference.theta + 0) := by
  cases f <;> cases hrev : c.reversed <;> simp [finish, travelSign, hrev]

/-- Evaluation of `advance` in the reversed scenario for the keep action `i = 0` on a
straight forward-driving parent. -/
theorem advance_reversed_forward :
    advance realMath (scenarioReversed ℝ) (straightParent ℝ 24) 0 0 (out0 ℝ) 0 =
      .ok (finish realMath (scenarioReversed ℝ) (straightParent ℝ 24) true 0 false 0) := by
  rfl

omit [LinearOrderedField α] in
/-- The run-in loop throws when it meets an object of another type after straight nodes
of the node type only. -/
theorem straightRunIn_castFailed_of_other (n : Nat) (p : PrevPtr α) (j : Nat) (hj : j < n)
    (h : ∃ x y, ancestor j p = .other x y)
    (hbefore : ∀ j2 : Nat, j2 < j → ∃ a, ancestor j2 p = .node a ∧ a.steering_angle = 0) :
    straightRunIn n p = .castFailed := by
  induction n generalizing p j with
  | zero => omega
  | succ n ih =>
    cases p with
    | null =>
      obtain ⟨x, y, hxy⟩ := h
      rw [ancestor_null] at hxy
      cases hxy
    | other x y => rfl
    | node t =>
      cases j with
      | zero =>
        obtain ⟨x, y, hxy⟩ := h
        simp [ancestor] at hxy
      | succ j =>
        have h0 := hbefore 0 (Nat.succ_pos j)
        simp only [ancestor, PrevPtr.node.injEq, exists_eq_left'] at h0
        simp only [straightRunIn]
        rw [if_neg (by simp [h0])]
        exact ih t.prev j (by omega) h (fun j2 hj2 => hbefore (j2 + 1) (by omega))

/-- The `throw` of `advance`: a direction switch with zero clamped steering on an
unlocked parent of depth at least 1 whose run-in loop fails the cast. -/
theorem advance_throws (M : MathOps α) (c : Config α) (reference : SteeringNode α)
    (i step : Int) (o : Out α) (mr : α) (u : Int)
    (hdepth : 1 ≤ reference.depth) (hcu : reference.custom ≤ 0)
    (hs : selectSteering c reference i step = some u) (hu : clampSteering c u = 0)
    (hb : (reference.forward != decide (i < 3)) = true)
    (hrun : straightRunIn (c.straight_dir_switch - 1).toNat reference.prev = .castFailed) :
    advance M c reference i step o mr = .error "cannot cast prev" := by
  have h1 : ¬ (reference.depth < 1 ∧ (i ≠ 0 ∧ i ≠ 5)) := by omega
  have h2 : ¬ (reference.custom > 0 ∧ |reference.steering_angle| > 0) := by omega
  have h3 : ¬ (c.reversed = false ∧ reference.depth < 1 ∧ i > 3) := by omega
  have h4 : ¬ (c.reversed = false ∧ reference.depth < 1 ∧ i = 3) := by omega
  have h5 : ¬ reference.custom > 0 := by omega
  have h6 : ¬ |clampSteering c u| > 0 := by rw [hu]; simp
  unfold advance
  simp only [if_neg h1, if_neg h2, if_neg h3, if_neg h4, hs, if_pos hb, if_neg h5, if_neg h6,
    hrun]

/-- Where the `switch` returns, `advance` returns `-1` and leaves the out-parameters as
they were. -/
theorem advance_select_none (M : MathOps α) (c : Config α) (reference : SteeringNode α)
    (i step : Int) (o : Out α) (mr : α)
    (hs : selectSteering c reference i step = none) :
    advance M c reference i step o mr = .ok (-1, o) := by
  unfold advance
  simp only [hs]
  split_ifs with h1 h2 h3 h4 h5
  all_goals first
    | rfl
    | (exfalso; apply h1; refine ⟨h4.2.1, ?_, ?_⟩ <;> omega)

/-- Evaluation of `advance` for the forward keep action on `steepParent`: the stored angle
40 is clamped to 30. -/
theorem advance_steepParent_keep :
    advance realMath (scenario ℝ) (steepParent ℝ) 0 0 (out0 ℝ) 0 =
      .ok (finish realMath (scenario ℝ) (steepParent ℝ) true 30 false 0) := by
  rfl

/-- Evaluation of `advance` for the forward right turn `i = 1`, `step = 1` on
`firstChild`. -/
theorem advance_firstChild_right :
    advance realMath (scenario ℝ) (firstChild ℝ) 1 1 (out0 ℝ) 0 =
      .ok (finish realMath (scenario ℝ) (firstChild ℝ) true (-5) false 0) := by
  rfl

/-- The default `straight_dir_switch` of the scenario, `round(250 / 10)`, is 25, and that
of a look-ahead `la = 4` at `distance = 10`, `round(0.4)`, is 0. -/
theorem defaultStraightDirSwitch_values :
    defaultStraightDirSwitch 250 10 = 25 ∧ defaultStraightDirSwitch 4 10 = 0 := by
  unfold defaultStraightDirSwitch cRound
  constructor
  · rw [if_pos (by norm_num), Int.floor_eq_iff]
    norm_num
  · rw [if_pos (by norm_num), Int.floor_eq_iff]
    norm_num

/-- Evaluation of `advance` for the backward keep action on `firstChild` when
`straight_dir_switch = 0`: the switch needs no run-in and sets `custom = -1`. -/
theorem advance_shortLA_backward :
    advance realMath { scenario ℝ with la := 4, straight_dir_switch := 0 } (firstChild ℝ) 3 0
        (out0 ℝ) 0 =
      .ok (finish realMath { scenario ℝ with la := 4, straight_dir_switch := 0 }
        (firstChild ℝ) false 0 true (-1)) := by
  rfl

/-- With a driver that never reports `PR_ADDED_TO_OPEN_LIST` the loop body leaves the
node store as it is. -/
theorem neighborStep_store_unchanged {ν σ : Type} [DecidableEq ν] (M : MathOps α)
    (c : Config α) (map : MapOps α ν) (algo : Driver α ν σ)
    (hnever : ∀ s r n cost, (algo.processNeighbor s r n cost).1 = .PR_OTHER)
    (reference : SteeringNode α) (i step : Nat) (o : Out α) (st st1 : NodeStore α ν)
    (s s1 : σ) (h : neighborStep M c map algo reference i step o st s = .ok (st1, s1)) :
    st1 = st := by
  unfold neighborStep at h
  rcases hadv : advance M c reference (i : Int) (step : Int) o map.rotation
    with e | ⟨cost, out⟩
  · rw [hadv] at h
    cases h
  · rw [hadv] at h
    simp only at h
    by_cases hneg : cost < 0
    · rw [if_pos hneg] at h
      simp only [Except.ok.injEq, Prod.mk.injEq] at h
      exact h.1.symm
    · rw [if_neg hneg] at h
      split_ifs at h
      · split at h
        · simp only [Except.ok.injEq, Prod.mk.injEq] at h
          exact h.1.symm
        · rename_i n hl
          have hv := hnever s reference n cost
          split at h
          · rename_i s2 heq
            rw [heq] at hv
            cases hv
          · simp only [Except.ok.injEq, Prod.mk.injEq] at h
            exact h.1.symm
      · simp only [Except.ok.injEq, Prod.mk.injEq] at h
        exact h.1.symm
      · simp only [Except.ok.injEq, Prod.mk.injEq] at h
        exact h.1.symm

/-- With a driver that never reports `PR_ADDED_TO_OPEN_LIST`, `iterateFreeNeighbors`
returns the node store it was given. -/
theorem iterateFreeNeighbors_store_unchanged {ν σ : Type} [DecidableEq ν] (M : MathOps α)
    (c : Config α) (map : MapOps α ν) (algo : Driver α ν σ)
    (hnever : ∀ s r n cost, (algo.processNeighbor s r n cost).1 = .PR_OTHER)
    (deref : NodeStore α ν → σ → SteeringNode α) (o : Nat → Nat → Out α)
    (st st1 : NodeStore α ν) (s s1 : σ)
    (h : iterateFreeNeighbors M c map algo deref o st s = .ok (st1, s1)) :
    st1 = st := by
  unfold iterateFreeNeighbors at h
  generalize loopPairs c = l at h
  induction l generalizing st s with
  | nil =>
    simp only [List.foldlM, pure, Except.pure, Except.ok.injEq, Prod.mk.injEq] at h
    exact h.1.symm
  | cons p l ih =>
    rw [List.foldlM_cons] at h
    rcases hstep : neighborStep M c map algo (deref st s) p.1 p.2 (o p.1 p.2) st s
      with e | ⟨st2, s2⟩
    · simp only [hstep, bind, Except.bind] at h
      cases h
    · simp only [hstep, bind, Except.bind] at h
      have h2 := neighborStep_store_unchanged M c map algo hnever _ _ _ _ _ _ _ _ hstep
      subst h2
      exact ih _ _ h

/-- Evaluation of `advance` for the right turn of `lockedParent` as called by the loop
body on the open map. -/
theorem advance_lockedParent_right_open :
    advance realMath (scenario ℝ) (lockedParent ℝ) ((1 : Nat) : Int) ((1 : Nat) : Int)
        (out0 ℝ) (openMap ℝ).rotation =
      .ok ((finish realMath (scenario ℝ) (lockedParent ℝ) true (-5) false 1).1,
           (finish realMath (scenario ℝ) (lockedParent ℝ) true (-5) false 1).2) := by
  rfl

/-- The function `isGoal` in terms of the effective goal, the scaled points and the
distances of the spec: the heading test, the lock test of the reversed search, the
bounding box, the point distance, and then, with a predecessor, the distance to the
predecessor for a segment with `l2 ≤ 0.0001` and the distance to the segment otherwise. -/
theorem isGoal_eq (M : MathOps α) (c : Config α) (goal reference : SteeringNode α) :
    isGoal M c goal reference =
      if |M.atan2 (M.sin (goal.theta - reference.theta))
          (M.cos (goal.theta - reference.theta))| > M.pi / 8 then false
      else if c.reversed = true ∧ reference.custom > 0 then false
      else if |(effectiveGoal M c goal reference).1 - reference.x| >
            ((4 * c.distance : Int) : α) ∨
          |(effectiveGoal M c goal reference).2 - reference.y| >
            ((4 * c.distance : Int) : α) then false
      else if M.hypot ((effectiveGoal M c goal reference).1 - reference.x)
          ((effectiveGoal M c goal reference).2 - reference.y) * c.resolution < 0.05 then true
      else match reference.prev.pos with
        | none => false
        | some prev =>
          decide ((if segmentLength2 (scaledPoint c prev)
                (scaledPoint c (reference.x, reference.y)) ≤ 0.0001
              then pointDistance M (scaledPoint c (effectiveGoal M c goal reference))
                (scaledPoint c prev)
              else segmentDistance M (scaledPoint c prev)
                (scaledPoint c (reference.x, reference.y))
                (scaledPoint c (effectiveGoal M c goal reference))) < 0.1) := by
  have e1 : goal.x + -M.cos goal.theta * LA c / c.resolution =
      goal.x - M.cos goal.theta * (LA c / c.resolution) := by ring
  have e2 : goal.y + -M.sin goal.theta * LA c / c.resolution =
      goal.y - M.sin goal.theta * (LA c / c.resolution) := by ring
  unfold isGoal effectiveGoal
  simp only [e1, e2]
  by_cases hs : c.reversed = true ∧ reference.forward = false
  · simp only [if_pos hs]
    rcases hp : reference.prev.pos with _ | ⟨px, py⟩ <;> rfl
  · simp only [if_neg hs]
    rcases hp : reference.prev.pos with _ | ⟨px, py⟩ <;> rfl

/-- Over the reals with a positive resolution, the distance between two scaled points is
the `hypot` of the coordinate differences times the resolution. -/
theorem pointDistance_scaled (c : Config ℝ) (hres : 0 < c.resolution) (a b : ℝ × ℝ) :
    pointDistance realMath (scaledPoint c a) (scaledPoint c b) =
      realMath.hypot (a.1 - b.1) (a.2 - b.2) * c.resolution := by
  show Real.sqrt ((a.1 * c.resolution - b.1 * c.resolution) *
        (a.1 * c.resolution - b.1 * c.resolution) +
      (a.2 * c.resolution - b.2 * c.resolution) * (a.2 * c.resolution - b.2 * c.resolution)) =
    Real.sqrt ((a.1 - b.1) * (a.1 - b.1) + (a.2 - b.2) * (a.2 - b.2)) * c.resolution
  have hnn : 0 ≤ (a.1 - b.1) * (a.1 - b.1) + (a.2 - b.2) * (a.2 - b.2) :=
    add_nonneg (mul_self_nonneg _) (mul_self_nonneg _)
  have e : (a.1 * c.resolution - b.1 * c.resolution) *
        (a.1 * c.resolution - b.1 * c.resolution) +
      (a.2 * c.resolution - b.2 * c.resolution) * (a.2 * c.resolution - b.2 * c.resolution) =
      ((a.1 - b.1) * (a.1 - b.1) + (a.2 - b.2) * (a.2 - b.2)) *
        (c.resolution * c.resolution) := by ring
  rw [e, Real.sqrt_mul hnn, Real.sqrt_mul_self hres.le]

/-- Evaluation of the tests of `isGoal` that precede the segment test for `midGoal`
against `firstChild` in the scenario: all pass, and the point distance is 0.5. -/
theorem isGoal_midGoal_tests :
    ¬ (|realMath.atan2 (realMath.sin ((midGoal ℝ).theta - (firstChild ℝ).theta))
        (realMath.cos ((midGoal ℝ).theta - (firstChild ℝ).theta))| > realMath.pi / 8) ∧
    ¬ ((scenario ℝ).reversed = true ∧ (firstChild ℝ).custom > 0) ∧
    ¬ (|(effectiveGoal realMath (scenario ℝ) (midGoal ℝ) (firstChild ℝ)).1 - (firstChild ℝ).x| >
          ((4 * (scenario ℝ).distance : Int) : ℝ) ∨
        |(effectiveGoal realMath (scenario ℝ) (midGoal ℝ) (firstChild ℝ)).2 - (firstChild ℝ).y| >
          ((4 * (scenario ℝ).distance : Int) : ℝ)) ∧
    ¬ (realMath.hypot
          ((effectiveGoal realMath (scenario ℝ) (midGoal ℝ) (firstChild ℝ)).1 - (firstChild ℝ).x)
          ((effectiveGoal realMath (scenario ℝ) (midGoal ℝ) (firstChild ℝ)).2 - (firstChild ℝ).y) *
        (scenario ℝ).resolution < 0.05) := by
  have hG : effectiveGoal realMath (scenario ℝ) (midGoal ℝ) (firstChild ℝ) = (5, 0) := by
    simp [effectiveGoal, scenario, midGoal, SteeringNode.x, SteeringNode.y]
  have hx : (firstChild ℝ).x = 10 := rfl
  have hy : (firstChild ℝ).y = 0 := rfl
  have hres : (scenario ℝ).resolution = 0.1 := rfl
  have h0 : realMath.atan2 (realMath.sin 0) (realMath.cos 0) = 0 :=
    realMath_atan2_sin_cos 0 ⟨by linarith [Real.pi_pos], Real.pi_pos.le⟩
  have hth : (midGoal ℝ).theta - (firstChild ℝ).theta = 0 := by
    simp [midGoal, firstChild, SteeringNode.theta]
  have hhyp : realMath.hypot (5 - 10) (0 - 0) = 5 := by
    show Real.sqrt ((5 - 10) * (5 - 10) + (0 - 0) * (0 - 0)) = 5
    rw [show ((5 : ℝ) - 10) * (5 - 10) + (0 - 0) * (0 - 0) = 5 * 5 by norm_num,
      Real.sqrt_mul_self (by norm_num)]
  refine ⟨?_, by decide, ?_, ?_⟩
  · rw [hth, h0]
    show ¬ |(0 : ℝ)| > Real.pi / 8
    rw [abs_zero]
    linarith [Real.pi_pos]
  · rw [hG, hx, hy]
    norm_num [scenario]
  · rw [hG, hx, hy, hres]
    show ¬ (realMath.hypot (5 - 10) (0 - 0) * 0.1 < 0.05)
    rw [hhyp]
    norm_num

/-- The goal `midGoal` lies on the segment from the root to `firstChild`, 0.5 map units
from either end: `isGoal` accepts it by the segment test. -/
theorem isGoal_midGoal :
    isGoal realMath (scenario ℝ) (midGoal ℝ) (firstChild ℝ) = true := by
  have hG : effectiveGoal realMath (scenario ℝ) (midGoal ℝ) (firstChild ℝ) = (5, 0) := by
    simp [effectiveGoal, scenario, midGoal, SteeringNode.x, SteeringNode.y]
  have hx : (firstChild ℝ).x = 10 := rfl
  have hy : (firstChild ℝ).y = 0 := rfl
  have hprev : (firstChild ℝ).prev.pos = some (0, 0) := rfl
  have hsqrt : realMath.sqrt = Real.sqrt := rfl
  have hseg : ¬ segmentLength2 (scaledPoint (scenario ℝ) (0, 0))
      (scaledPoint (scenario ℝ) (10, 0)) ≤ 0.0001 := by
    norm_num [segmentLength2, scaledPoint, scenario]
  have hsd : segmentDistance realMath (scaledPoint (scenario ℝ) (0, 0))
      (scaledPoint (scenario ℝ) (10, 0)) (scaledPoint (scenario ℝ) (5, 0)) < 0.1 := by
    unfold segmentDistance segmentLength2 segmentPoint pointDistance scaledPoint
    rw [hsqrt, Real.sqrt_lt' (by norm_num)]
    norm_num [scenario, min_def, max_def]
  rw [isGoal_eq, if_neg isGoal_midGoal_tests.1, if_neg isGoal_midGoal_tests.2.1,
    if_neg isGoal_midGoal_tests.2.2.1, if_neg isGoal_midGoal_tests.2.2.2, hG, hprev, hx, hy]
  simp only [if_neg hseg]
  exact decide_eq_true hsd

/-- The pose `finish` computes for a non-zero steering angle, in terms of the turning
radius and the heading change. -/
theorem finish_arc (M : MathOps α) (c : Config α) (reference : SteeringNode α)
    (f : Bool) (sa : Int) (d : Bool) (cu : Int) (hsa : sa ≠ 0) :
    (finish M c reference f sa d cu).2.x_ =
        reference.x + turningRadius M c sa *
          (M.sin (reference.theta + headingChange M c sa f) - M.sin reference.theta) ∧
    (finish M c reference f sa d cu).2.y_ =
        reference.y + turningRadius M c sa *
          (-M.cos (reference.theta + headingChange M c sa f) + M.cos reference.theta) ∧
    (finish M c reference f sa d cu).2.theta_ =
        M.AngleClamp (reference.theta + headingChange M c sa f) := by
  cases f <;> cases hrev : c.reversed <;>
    simp [finish, travelSign, hrev, hsa, turningRadius, headingChange]

/-- The out-parameters `forward_` and `steering_angle_` written by `finish`. -/
theorem finish_flags (M : MathOps α) (c : Config α) (reference : SteeringNode α)
    (f : Bool) (sa : Int) (d : Bool) (cu : Int) :
    (finish M c reference f sa d cu).2.forward_ = f ∧
    (finish M c reference f sa d cu).2.steering_angle_ = sa :=
  ⟨rfl, rfl⟩

/-- A non-negative cost of `finish` means a non-negative `distance_step_pixel`. -/
theorem finish_cost_nonneg (M : MathOps α) (c : Config α) (reference : SteeringNode α)
    (f : Bool) (s : Int) (d : Bool) (cu : Int)
    (h : 0 ≤ (finish M c reference f s d cu).1) : 0 ≤ c.distance_step_pixel := by
  rw [finish_cost] at h
  have h1 : (0 : α) < (if f = false then 2.5 else 1) := by
    split_ifs <;> norm_num
  have h2 : (0 : α) < (if d = true then 4 else 1) := by
    split_ifs <;> norm_num
  by_contra hn
  have hneg : c.distance_step_pixel < 0 := not_le.mp hn
  have := mul_neg_of_neg_of_pos (mul_neg_of_neg_of_pos hneg h1) h2
  exact absurd h (not_le.mpr this)

/-- The sign of travel squares to one. -/
theorem travelSign_mul_self (c : Config α) (f : Bool) :
    travelSign c f * travelSign c f = 1 := by
  cases f <;> cases hrev : c.reversed <;> simp [travelSign, hrev]

/-- Over the reals, the `hypot` of `(R sin t, -(R cos t))` is `|R|`. -/
theorem hypot_circle (R t : ℝ) :
    realMath.hypot (R * Real.sin t) (-(R * Real.cos t)) = |R| := by
  show Real.sqrt (R * Real.sin t * (R * Real.sin t) +
    -(R * Real.cos t) * -(R * Real.cos t)) = |R|
  have e : R * Real.sin t * (R * Real.sin t) + -(R * Real.cos t) * -(R * Real.cos t) =
      R * R := by
    have := Real.sin_sq_add_cos_sq t
    nlinarith [this]
  rw [e, Real.sqrt_mul_self_eq_abs]

/-- The lock guard of lines 130-135 as it is written: for a parent with `custom > 0`,
`advance` rejects every action when the steering angle stored in the parent is non-zero;
an accepted edge leaves a parent with zero steering, keeps the parent's direction, and
carries the resulting steering angle of the selected action, which for right and left
actions is the clamped step and not zero. -/
theorem advance_locked_accepted (M : MathOps α) (c : Config α)
    (reference : SteeringNode α) (i step : Int) (o : Out α) (mr : α)
    (hc : reference.custom > 0) :
    (reference.steering_angle ≠ 0 → advance M c reference i step o mr = .ok (-1, o)) ∧
    (∀ r, advance M c reference i step o mr = .ok r → 0 ≤ r.1 →
      reference.steering_angle = 0 ∧ r.2.forward_ = reference.forward ∧
      (0 ≤ c.max_steer → r.2.steering_angle_ = resultingSteering c reference i step)) := by
  refine ⟨advance_locked_steering M c reference i step o mr hc, ?_⟩
  intro r h hr
  rcases advance_ok_cases M c reference i step o mr r h with h1 | ⟨u, hs, hn, hsw, rfl⟩
  · rw [h1] at hr
    exact absurd hr (by norm_num)
  · have hb : (reference.forward != decide (i < 3)) = false := by
      by_contra hb
      have := (hsw (by simpa using hb)).1
      omega
    refine ⟨?_, ?_, ?_⟩
    · by_contra h0
      exact hn ⟨hc, abs_pos.mpr h0⟩
    · show decide (i < 3) = reference.forward
      cases hf : reference.forward <;> cases hd : decide (i < 3) <;> simp_all
    · intro hm
      exact clampSteering_eq_resultingSteering c reference i step u hs hm

/-- The part of the lock that the code as written does enforce: for a parent within
`±max_steer` that is straight while locked, every accepted edge whose output `custom` is
positive and which is a direction switch or a keep action has output steering angle 0.
Right and left actions of a locked parent are not covered. -/
theorem advance_locked_output_straight (M : MathOps α) (c : Config α)
    (reference : SteeringNode α) (i step : Int) (o : Out α) (mr : α) (r : α × Out α)
    (hrange : -c.max_steer ≤ reference.steering_angle ∧ reference.steering_angle ≤ c.max_steer)
    (hlock : reference.custom > 0 → reference.steering_angle = 0)
    (h : advance M c reference i step o mr = .ok r) (hr : 0 ≤ r.1)
    (hpos : r.2.custom > 0)
    (hkind : r.2.forward_ ≠ reference.forward ∨ (i ≠ 1 ∧ i ≠ 2 ∧ i ≠ 4 ∧ i ≠ 5)) :
    r.2.steering_angle_ = 0 := by
  obtain ⟨u, hs, _, hsw, rfl⟩ := advance_accepted M c reference i step o mr r h hr
  show clampSteering c u = 0
  by_cases hb : (reference.forward != decide (i < 3)) = true
  · exact (hsw hb).2.1
  · rcases hkind with hne | hkeep
    · exact absurd ((bne_eq_true_iff_ne _ _).mpr hne) hb
    · have hcu : reference.custom > 0 := by
        by_contra hle
        have : (if (reference.forward != decide (i < 3)) = true
            then toChar (c.straight_dir_switch - 1)
            else if reference.custom > 0 then toChar (reference.custom - 1) else 0) > 0 := hpos
        rw [if_neg hb, if_neg hle] at this
        omega
      have hsa := hlock hcu
      have hu : u = 0 := by
        unfold selectSteering at hs
        simp only [hkeep.1, hkeep.2.1, hkeep.2.2.1, hkeep.2.2.2, or_self, if_false] at hs
        split_ifs at hs
        simp only [Option.some.injEq] at hs
        omega
      subst hu
      unfold clampSteering MAX_STEER_ANGLE STEER_ANGLE
      split_ifs <;> omega

/-! ## The claims -/

/-- C1 (code at the failing input): the locked parent `lockedParent` (`custom = 2`, zero
steering) takes the right turn `i = 1`, `step = 1` of the scenario, whose resulting
steering angle is `-5`: `advance` does not reject it but returns the cost 10 with the
non-zero output steering angle `-5` and `custom = 1`. The guard of lines 130-135, under
the comment "if custom flag is positive, we need to go straight", tests the steering
angle stored in the parent and not the angle of the action. -/
theorem C1_locked_parent_turn_accepted :
    (lockedParent ℝ).custom > 0 ∧
    resultingSteering (scenario ℝ) (lockedParent ℝ) 1 1 = -5 ∧
    ∃ r, advance realMath (scenario ℝ) (lockedParent ℝ) 1 1 (out0 ℝ) 0 = .ok r ∧
      r.1 = 10 ∧ r.2.steering_angle_ = -5 ∧ r.2.custom = 1 := by
  refine ⟨by decide, by decide, _, advance_lockedParent_right, ?_, rfl, rfl⟩
  rw [finish_cost]
  simp [scenario]

/-- C2 (code at the failing input): in the scenario the root is expanded, over all
`i` in `0..5` and `step` in `0..2`, to the straight forward step alone; every other pair,
the lead-in pair `i = 3`, `step = 0` included, returns `-1` with the out-parameters
untouched. -/
theorem C2_root_expansion (i : Fin 6) (step : Fin 3) (o : Out ℝ) :
    advance realMath (scenario ℝ) (root ℝ) ((i : Nat) : Int) ((step : Nat) : Int) o 0 =
      if (i : Nat) = 0 ∧ (step : Nat) = 0 then
        .ok (10, { x_ := 10, y_ := 0, theta_ := 0, forward_ := true, steering_angle_ := 0,
                   custom := 0 })
      else .ok (-1, o) := by
  have h00 : advance realMath (scenario ℝ) (root ℝ) 0 0 o 0 =
      .ok (finish realMath (scenario ℝ) (root ℝ) true 0 false 0) := rfl
  have hpi : (0 : ℝ) ∈ Set.Ioc (-Real.pi) (-Real.pi + 2 * Real.pi) :=
    ⟨by linarith [Real.pi_pos], by linarith [Real.pi_pos]⟩
  have hfin : finish realMath (scenario ℝ) (root ℝ) true 0 false 0 =
      (10, { x_ := 10, y_ := 0, theta_ := 0, forward_ := true, steering_angle_ := 0,
             custom := 0 }) := by
    simp [finish, realMath, scenario, root, SteeringNode.x, SteeringNode.y,
      SteeringNode.theta, (toIocMod_eq_self Real.two_pi_pos).mpr hpi]
  fin_cases i <;> fin_cases step
  · simpa [hfin] using h00
  all_goals rfl

/-- C3 (counterexample): with `straight_dir_switch = 257` a straight parent with 256
straight predecessors switches direction (`i = 3`, `step = 0`); the edge is accepted with
cost 100 and `custom = 0`, not `257 - 1`. -/
theorem C3_counterexample :
    (scenario257 ℝ).straight_dir_switch - 1 = 256 ∧
    ∃ r, advance realMath (scenario257 ℝ) (straightParent ℝ 256) 3 0 (out0 ℝ) 0 = .ok r ∧
      r.1 = 100 ∧ r.2.forward_ ≠ (straightParent ℝ 256).forward ∧ r.2.custom = 0 := by
  have h : advance realMath (scenario257 ℝ) (straightParent ℝ 256) 3 0 (out0 ℝ) 0 =
      .ok (finish realMath (scenario257 ℝ) (straightParent ℝ 256) false 0 true 0) := by
    have hr : straightRunIn ((scenario257 ℝ).straight_dir_switch - 1).toNat
        (straightParent ℝ 256).prev = .passed :=
      straightRunIn_straightChain 256 256 le_rfl
    unfold advance
    simp only [hr]
    rfl
  refine ⟨by decide, _, h, ?_, by decide, rfl⟩
  rw [finish_cost]
  simp [scenario257, scenario]
  norm_num

/-- C3 (amended): let `k = straight_dir_switch` with `k - 1` in the range of the `char`
out-parameter. Every accepted edge whose `forward_` differs from the parent's has
`custom = k - 1`, and each of the `k - 1` ancestors of the parent is a node with zero
steering. Conversely, for a direction-switching `i`, if among those `k - 1` ancestors one
is absent or steers, `advance` returns no cost but `-1`, and it does return `-1` when none
of them fails the cast to the node type. -/
theorem C3_direction_switch_run_in (M : MathOps α) (c : Config α)
    (reference : SteeringNode α) (i step : Int) (o : Out α) (mr : α)
    (hk : -128 ≤ c.straight_dir_switch - 1 ∧ c.straight_dir_switch - 1 ≤ 127) :
    (∀ r, advance M c reference i step o mr = .ok r → 0 ≤ r.1 →
      r.2.forward_ ≠ reference.forward →
      r.2.custom = c.straight_dir_switch - 1 ∧
      ∀ j : Nat, (j : Int) < c.straight_dir_switch - 1 →
        ∃ a, ancestor j reference.prev = .node a ∧ a.steering_angle = 0) ∧
    (decide (i < 3) ≠ reference.forward →
      (∃ j : Nat, (j : Int) < c.straight_dir_switch - 1 ∧
        (ancestor j reference.prev = .null ∨
          ∃ a, ancestor j reference.prev = .node a ∧ a.steering_angle ≠ 0)) →
      (∀ r, advance M c reference i step o mr = .ok r → r.1 = -1) ∧
      ((∀ j : Nat, (j : Int) < c.straight_dir_switch - 1 →
          ∀ x y, ancestor j reference.prev ≠ .other x y) →
        ∃ o1, advance M c reference i step o mr = .ok (-1, o1))) := by
  constructor
  · intro r h hr hne
    rcases advance_ok_cases M c reference i step o mr r h with h1 | ⟨u, _, _, hsw, rfl⟩
    · rw [h1] at hr
      exact absurd hr (by norm_num)
    · have hb : (reference.forward != decide (i < 3)) = true := by
        have hne2 : decide (i < 3) ≠ reference.forward := hne
        cases hf : reference.forward <;> cases hd : decide (i < 3) <;> simp_all
      obtain ⟨_, _, hp⟩ := hsw hb
      refine ⟨?_, ?_⟩
      · show (if (reference.forward != decide (i < 3)) = true
          then toChar (c.straight_dir_switch - 1)
          else if reference.custom > 0 then toChar (reference.custom - 1) else 0) = _
        rw [if_pos hb, toChar_eq_self _ hk]
      · intro j hj
        exact (straightRunIn_passed_iff _ _).mp hp j (by omega)
  · intro hne ⟨j, hj, hbad⟩
    have hb : (reference.forward != decide (i < 3)) = true := by
      cases hf : reference.forward <;> cases hd : decide (i < 3) <;> simp_all
    have hnp : straightRunIn (c.straight_dir_switch - 1).toNat reference.prev ≠ .passed := by
      intro hp
      obtain ⟨a, ha, ha0⟩ := (straightRunIn_passed_iff _ _).mp hp j (by omega)
      rcases hbad with hnull | ⟨b, hb1, hb2⟩
      · rw [hnull] at ha
        cases ha
      · rw [hb1] at ha
        cases ha
        exact hb2 ha0
    constructor
    · intro r h
      rcases advance_ok_cases M c reference i step o mr r h with h1 | ⟨u, _, _, hsw, _⟩
      · exact h1
      · exact absurd (hsw hb).2.2 hnp
    · intro hcast
      apply advance_switch_rejected M c reference i step o mr hb
      intro u _
      right; right
      rcases hr : straightRunIn (c.straight_dir_switch - 1).toNat reference.prev
      · exact absurd hr hnp
      · rfl
      · obtain ⟨j2, hj2, x, y, hxy⟩ := straightRunIn_castFailed _ _ hr
        exact absurd hxy (hcast j2 (by omega) x y)

/-- C3 (witness): `C3_direction_switch_run_in` at the backward step of a straight parent
with 24 straight predecessors, in the scenario (`k - 1 = 24`). -/
theorem C3_witness :
    (-128 ≤ (scenario ℝ).straight_dir_switch - 1 ∧ (scenario ℝ).straight_dir_switch - 1 ≤ 127) ∧
    ((finish realMath (scenario ℝ) (straightParent ℝ 24) false 0 true 24).2.custom =
        (scenario ℝ).straight_dir_switch - 1 ∧
      ∀ j : Nat, (j : Int) < (scenario ℝ).straight_dir_switch - 1 →
        ∃ a, ancestor j (straightParent ℝ 24).prev = .node a ∧ a.steering_angle = 0) :=
  ⟨by decide,
    (C3_direction_switch_run_in realMath (scenario ℝ) (straightParent ℝ 24) 3 0 (out0 ℝ) 0
      (by decide)).1 _ advance_straightParent_backward
      (by rw [finish_cost]; simp [scenario]; norm_num) (by decide)⟩

/-- C4: with `distance_step_pixel ≥ 0`, every cost `advance` returns is the rejection `-1`
or non-negative, and a non-negative (accepted) cost is `d * (2.5 if forward_ is false) *
(4 if forward_ differs from the parent's direction)`, hence one of `d`, `2.5 d`, `4 d`,
`10 d` for `d = distance_step_pixel`; `advance` does return a cost whenever no
predecessor fails the cast to the node type. The bound on `resolution` is not needed. -/
theorem C4_cost_sign_and_formula (M : MathOps α) (c : Config α)
    (reference : SteeringNode α) (i step : Int) (o : Out α) (mr : α)
    (hd : 0 ≤ c.distance_step_pixel) :
    (∀ r, advance M c reference i step o mr = .ok r →
      (r.1 = -1 ∨ 0 ≤ r.1) ∧
      (0 ≤ r.1 →
        r.1 = c.distance_step_pixel * (if r.2.forward_ = false then 2.5 else 1) *
          (if r.2.forward_ ≠ reference.forward then 4 else 1) ∧
        (r.1 = c.distance_step_pixel ∨ r.1 = 2.5 * c.distance_step_pixel ∨
          r.1 = 4 * c.distance_step_pixel ∨ r.1 = 10 * c.distance_step_pixel))) ∧
    ((∀ (j : Nat) (x y : α), ancestor j reference.prev ≠ .other x y) →
      ∃ r, advance M c reference i step o mr = .ok r) := by
  constructor
  · intro r h
    rcases advance_ok_cases M c reference i step o mr r h with h1 | ⟨u, _, _, _, rfl⟩
    · refine ⟨Or.inl h1, fun hr => ?_⟩
      rw [h1] at hr
      exact absurd hr (by norm_num)
    · have hform : (finish M c reference (decide (i < 3)) (clampSteering c u)
            (reference.forward != decide (i < 3))
            (if (reference.forward != decide (i < 3)) = true
              then toChar (c.straight_dir_switch - 1)
              else if reference.custom > 0 then toChar (reference.custom - 1) else 0)).1 =
          c.distance_step_pixel * (if decide (i < 3) = false then 2.5 else 1) *
            (if decide (i < 3) ≠ reference.forward then 4 else 1) := by
        rw [finish_cost]
        cases hf : reference.forward <;> cases hdd : decide (i < 3) <;> simp
      have hcases : ∀ (f g : Bool),
          c.distance_step_pixel * (if f = false then (2.5 : α) else 1) *
              (if f ≠ g then (4 : α) else 1) = c.distance_step_pixel ∨
          c.distance_step_pixel * (if f = false then (2.5 : α) else 1) *
              (if f ≠ g then (4 : α) else 1) = 2.5 * c.distance_step_pixel ∨
          c.distance_step_pixel * (if f = false then (2.5 : α) else 1) *
              (if f ≠ g then (4 : α) else 1) = 4 * c.distance_step_pixel ∨
          c.distance_step_pixel * (if f = false then (2.5 : α) else 1) *
              (if f ≠ g then (4 : α) else 1) = 10 * c.distance_step_pixel := by
        intro f g
        cases f <;> cases g <;> simp <;> ring_nf <;> simp
      have hnn : 0 ≤ c.distance_step_pixel * (if decide (i < 3) = false then (2.5 : α) else 1) *
            (if decide (i < 3) ≠ reference.forward then (4 : α) else 1) := by
        apply mul_nonneg (mul_nonneg hd _) _ <;> split_ifs <;> norm_num
      refine ⟨Or.inr (hform ▸ hnn), fun _ => ⟨hform, ?_⟩⟩
      rw [hform]
      exact hcases _ _
  · intro hcast
    rcases hres : advance M c reference i step o mr with e | r
    · obtain ⟨j, _, x, y, hxy⟩ := straightRunIn_castFailed _ _
        (advance_error M c reference i step o mr e hres)
      exact absurd hxy (hcast j x y)
    · exact ⟨r, rfl⟩

/-- C4 (witness): `C4_cost_sign_and_formula` at the right turn of `lockedParent` in the
scenario, whose cost is `d = 10`. -/
theorem C4_witness :
    0 ≤ (scenario ℝ).distance_step_pixel ∧
    ((finish realMath (scenario ℝ) (lockedParent ℝ) true (-5) false 1).1 =
        (scenario ℝ).distance_step_pixel *
          (if (finish realMath (scenario ℝ) (lockedParent ℝ) true (-5) false 1).2.forward_ = false
            then 2.5 else 1) *
          (if (finish realMath (scenario ℝ) (lockedParent ℝ) true (-5) false 1).2.forward_ ≠
            (lockedParent ℝ).forward then 4 else 1)) :=
  have hd : 0 ≤ (scenario ℝ).distance_step_pixel := by simp [scenario]
  ⟨hd,
    (((C4_cost_sign_and_formula realMath (scenario ℝ) (lockedParent ℝ) 1 1 (out0 ℝ) 0 hd).1
      _ advance_lockedParent_right).2 (by rw [finish_cost]; simp [scenario])).1⟩

/-- C5 (counterexample): on a forward-driving straight parent with 24 straight
predecessors the scenario accepts both the forward keep action `i = 0` (cost 10) and its
backward counterpart `i = 3` (cost 100), and `100` is not `2.5 * 10`. -/
theorem C5_counterexample :
    ∃ r1 r2,
      advance realMath (scenario ℝ) (straightParent ℝ 24) 0 0 (out0 ℝ) 0 = .ok r1 ∧
      advance realMath (scenario ℝ) (straightParent ℝ 24) (0 + 3) 0 (out0 ℝ) 0 = .ok r2 ∧
      0 ≤ r1.1 ∧ 0 ≤ r2.1 ∧ r1.1 = 10 ∧ r2.1 = 100 ∧ r2.1 ≠ 2.5 * r1.1 := by
  have h1 : (finish realMath (scenario ℝ) (straightParent ℝ 24) true 0 false 0).1 = 10 := by
    rw [finish_cost]; simp [scenario]
  have h2 : (finish realMath (scenario ℝ) (straightParent ℝ 24) false 0 true 24).1 = 100 := by
    rw [finish_cost]; simp [scenario]; norm_num
  refine ⟨_, _, advance_straightParent_forward, advance_straightParent_backward, ?_, ?_,
    h1, h2, ?_⟩
  · rw [h1]; norm_num
  · rw [h2]; norm_num
  · rw [h1, h2]; norm_num

/-- C5 (amended): when `advance` accepts both a forward action `i` in `{0, 1, 2}` and its
backward counterpart `i + 3` on the same parent, exactly one of the two is a direction
switch and carries the factor 4: `cost(i + 3) = 2.5 * 4 * cost(i)` for a parent driving
forward and `4 * cost(i + 3) = 2.5 * cost(i)` for a parent driving backward. -/
theorem C5_backward_ratio (M : MathOps α) (c : Config α)
    (reference : SteeringNode α) (i step : Int) (o o2 : Out α) (mr : α) (r1 r2 : α × Out α)
    (hi : i = 0 ∨ i = 1 ∨ i = 2)
    (h1 : advance M c reference i step o mr = .ok r1)
    (h2 : advance M c reference (i + 3) step o2 mr = .ok r2)
    (hr1 : 0 ≤ r1.1) (hr2 : 0 ≤ r2.1) :
    (reference.forward = true → r2.1 = 2.5 * 4 * r1.1) ∧
    (reference.forward = false → 4 * r2.1 = 2.5 * r1.1) := by
  rcases advance_ok_cases M c reference i step o mr r1 h1 with e1 | ⟨u1, _, _, _, rfl⟩
  · rw [e1] at hr1
    exact absurd hr1 (by norm_num)
  rcases advance_ok_cases M c reference (i + 3) step o2 mr r2 h2 with e2 | ⟨u2, _, _, _, rfl⟩
  · rw [e2] at hr2
    exact absurd hr2 (by norm_num)
  have hd1 : decide (i < 3) = true := by simp; omega
  have hd2 : decide (i + 3 < 3) = false := by simp; omega
  rw [finish_cost, finish_cost, hd1, hd2]
  constructor <;> intro hf <;> rw [hf] <;> simp <;> ring

/-- C5 (witness): `C5_backward_ratio` at the keep actions `i = 0` and `i = 3` of a straight
parent with 24 straight predecessors in the scenario: the costs are 10 and 100. -/
theorem C5_witness :
    (straightParent ℝ 24).forward = true ∧
    (finish realMath (scenario ℝ) (straightParent ℝ 24) false 0 true 24).1 =
      2.5 * 4 * (finish realMath (scenario ℝ) (straightParent ℝ 24) true 0 false 0).1 :=
  ⟨rfl,
    (C5_backward_ratio realMath (scenario ℝ) (straightParent ℝ 24) 0 0 (out0 ℝ) (out0 ℝ) 0 _ _
      (Or.inl rfl) advance_straightParent_forward advance_straightParent_backward
      (by rw [finish_cost]; simp [scenario])
      (by rw [finish_cost]; simp [scenario]; norm_num)).1 rfl⟩

/-- C6 (counterexample): in the reversed scenario the locked node `lockedAtGoal`
(`custom = 1`) has exactly the pose of `goalNode`, and `isGoal` returns false. -/
theorem C6_counterexample :
    (lockedAtGoal ℝ).x = (goalNode ℝ).x ∧ (lockedAtGoal ℝ).y = (goalNode ℝ).y ∧
    (lockedAtGoal ℝ).theta = (goalNode ℝ).theta ∧
    isGoal realMath (scenarioReversed ℝ) (goalNode ℝ) (lockedAtGoal ℝ) = false := by
  refine ⟨rfl, rfl, rfl, ?_⟩
  have h0 : realMath.atan2 (realMath.sin 0) (realMath.cos 0) = 0 :=
    realMath_atan2_sin_cos 0 ⟨by linarith [Real.pi_pos], Real.pi_pos.le⟩
  have hpi : ¬ Real.pi / 8 < 0 := by linarith [Real.pi_pos]
  unfold isGoal
  simp [goalNode, lockedAtGoal, SteeringNode.theta, SteeringNode.custom, scenarioReversed,
    scenario, h0, hpi, realMath]

/-- C6 (amended): over the reals, with `distance ≥ 0`, a reference node at the exact goal
position and heading is accepted by `isGoal` when the search is not reversed, and in a
reversed search when the reference is not locked (`custom ≤ 0`) and drives forward. -/
theorem C6_exact_goal_pose (c : Config ℝ) (goal reference : SteeringNode ℝ)
    (hdist : 0 ≤ c.distance)
    (hmode : c.reversed = false ∨ (reference.custom ≤ 0 ∧ reference.forward = true))
    (hx : reference.x = goal.x) (hy : reference.y = goal.y)
    (ht : reference.theta = goal.theta) :
    isGoal realMath c goal reference = true := by
  have h0 : realMath.atan2 (realMath.sin 0) (realMath.cos 0) = 0 :=
    realMath_atan2_sin_cos 0 ⟨by linarith [Real.pi_pos], Real.pi_pos.le⟩
  have hpi : ¬ |(0 : ℝ)| > realMath.pi / 8 := by
    show ¬ |(0 : ℝ)| > Real.pi / 8
    rw [abs_zero]
    linarith [Real.pi_pos]
  have hlock : ¬ (c.reversed = true ∧ reference.custom > 0) := by
    rintro ⟨h1, h2⟩
    rcases hmode with h | ⟨h, _⟩
    · rw [h] at h1; cases h1
    · omega
  have hshift : ¬ (c.reversed = true ∧ reference.forward = false) := by
    rintro ⟨h1, h2⟩
    rcases hmode with h | ⟨_, h⟩
    · rw [h] at h1; cases h1
    · rw [h] at h2; cases h2
  have hbox : ¬ (|(0 : ℝ)| > ((4 * c.distance : Int) : ℝ) ∨
      |(0 : ℝ)| > ((4 * c.distance : Int) : ℝ)) := by
    have : (0 : ℝ) ≤ ((4 * c.distance : Int) : ℝ) := by
      exact_mod_cast (by omega : (0 : Int) ≤ 4 * c.distance)
    rw [abs_zero]
    rintro (h | h) <;> linarith
  have hdistz : realMath.hypot 0 0 * c.resolution < 0.05 := by
    show Real.sqrt (0 * 0 + 0 * 0) * c.resolution < 0.05
    norm_num
  unfold isGoal
  simp only [hx, hy, ht, sub_self, h0, if_neg hpi, if_neg hlock, if_neg hshift, if_neg hbox,
    if_pos hdistz]

/-- C6 (witness): `C6_exact_goal_pose` in the scenario for the locked node at the goal
pose, which a search that is not reversed accepts. -/
theorem C6_witness :
    isGoal realMath (scenario ℝ) (goalNode ℝ) (lockedAtGoal ℝ) = true :=
  C6_exact_goal_pose (scenario ℝ) (goalNode ℝ) (lockedAtGoal ℝ) (by decide)
    (Or.inl rfl) rfl rfl rfl

/-- C7 (counterexample): in the reversed scenario with a look-ahead of 50 cells, the
backward-driving node `behindGoal` lies 50 cells from `goalNode` along x, more than
`4 * distance = 40`, and `isGoal` returns true. -/
theorem C7_counterexample :
    |(goalNode ℝ).x - (behindGoal ℝ).x| > ((4 * (scenarioReversedLong ℝ).distance : Int) : ℝ) ∧
    isGoal realMath (scenarioReversedLong ℝ) (goalNode ℝ) (behindGoal ℝ) = true := by
  constructor
  · simp [goalNode, behindGoal, SteeringNode.x, scenarioReversedLong, scenario]
    norm_num
  · have h0 : realMath.atan2 (realMath.sin 0) (realMath.cos 0) = 0 :=
      realMath_atan2_sin_cos 0 ⟨by linarith [Real.pi_pos], Real.pi_pos.le⟩
    have hpi : ¬ Real.pi / 8 < 0 := by linarith [Real.pi_pos]
    unfold isGoal
    simp [goalNode, behindGoal, SteeringNode.theta, SteeringNode.custom, SteeringNode.x,
      SteeringNode.y, SteeringNode.forward, scenarioReversedLong, scenario, h0, hpi, LA]
    simp [realMath]
    norm_num
    exact div_nonneg Real.pi_pos.le (by norm_num)

/-- C7 (amended): `isGoal` returns false when the effective goal point (the goal position,
shifted by `-LA / resolution` along the goal heading when `reversed` is set and the
reference drives backward) is more than `4 * distance` cells from the reference along x
or along y; the effective goal is the goal itself, and the claim holds as stated, when
the search is not reversed or the reference drives forward. -/
theorem C7_bounding_box (M : MathOps α) (c : Config α) (goal reference : SteeringNode α) :
    ((|(effectiveGoal M c goal reference).1 - reference.x| > ((4 * c.distance : Int) : α) ∨
        |(effectiveGoal M c goal reference).2 - reference.y| > ((4 * c.distance : Int) : α)) →
      isGoal M c goal reference = false) ∧
    ((c.reversed = false ∨ reference.forward = true) →
      (|goal.x - reference.x| > ((4 * c.distance : Int) : α) ∨
        |goal.y - reference.y| > ((4 * c.distance : Int) : α)) →
      isGoal M c goal reference = false) := by
  have key : (|(effectiveGoal M c goal reference).1 - reference.x| > ((4 * c.distance : Int) : α) ∨
        |(effectiveGoal M c goal reference).2 - reference.y| > ((4 * c.distance : Int) : α)) →
      isGoal M c goal reference = false := by
    intro h
    have e1 : goal.x + -M.cos goal.theta * LA c / c.resolution =
        goal.x - M.cos goal.theta * (LA c / c.resolution) := by ring
    have e2 : goal.y + -M.sin goal.theta * LA c / c.resolution =
        goal.y - M.sin goal.theta * (LA c / c.resolution) := by ring
    unfold effectiveGoal at h
    unfold isGoal
    simp only [e1, e2]
    by_cases hs : c.reversed = true ∧ reference.forward = false
    · simp only [if_pos hs] at h ⊢
      simp only [if_pos h]
      split_ifs <;> rfl
    · simp only [if_neg hs] at h ⊢
      simp only [if_pos h]
      split_ifs <;> rfl
  refine ⟨key, fun hm h => key ?_⟩
  have hs : ¬ (c.reversed = true ∧ reference.forward = false) := by
    rintro ⟨h1, h2⟩
    rcases hm with h3 | h3
    · rw [h3] at h1; cases h1
    · rw [h3] at h2; cases h2
  unfold effectiveGoal
  simpa only [if_neg hs] using h

/-- C7 (witness): `C7_bounding_box` in the scenario for a reference 50 cells from the goal
along x, which a search that is not reversed rejects. -/
theorem C7_witness :
    isGoal realMath (scenario ℝ) (goalNode ℝ) (behindGoal ℝ) = false :=
  (C7_bounding_box realMath (scenario ℝ) (goalNode ℝ) (behindGoal ℝ)).2 (Or.inl rfl)
    (Or.inl (by
      simp [goalNode, behindGoal, SteeringNode.x, scenario]
      norm_num))

/-- C8: over the reals, `isGoal` returns false whenever the wrapped heading difference
`atan2(sin d, cos d)`, `d = goal.theta - reference.theta`, exceeds `pi / 8` in magnitude;
in particular whenever `d = ±(pi / 8 + ε)` with `0 < ε < 7 pi / 8`, whatever the positions,
`custom`, `forward` and `prev` are. -/
theorem C8_heading_tolerance (c : Config ℝ) (goal reference : SteeringNode ℝ) :
    (|realMath.atan2 (Real.sin (goal.theta - reference.theta))
        (Real.cos (goal.theta - reference.theta))| > Real.pi / 8 →
      isGoal realMath c goal reference = false) ∧
    (∀ ε : ℝ, 0 < ε → ε < 7 * Real.pi / 8 →
      (goal.theta - reference.theta = Real.pi / 8 + ε ∨
        goal.theta - reference.theta = -(Real.pi / 8 + ε)) →
      isGoal realMath c goal reference = false) := by
  refine ⟨fun h => isGoal_heading realMath c goal reference h, ?_⟩
  intro ε h0 h1 hd
  apply isGoal_heading
  have hpi := Real.pi_pos
  have hmem : goal.theta - reference.theta ∈ Set.Ioc (-Real.pi) Real.pi := by
    rcases hd with hd | hd <;> rw [hd] <;> constructor <;> linarith
  rw [realMath_atan2_sin_cos _ hmem]
  show |goal.theta - reference.theta| > Real.pi / 8
  rcases hd with hd | hd <;> rw [hd]
  · rw [abs_of_pos (by linarith)]
    linarith
  · rw [abs_neg, abs_of_pos (by linarith)]
    linarith

/-- C8 (witness): `C8_heading_tolerance` for a goal heading of `pi / 4` against the
reference heading 0, that is `ε = pi / 8`, at coinciding positions. -/
theorem C8_witness :
    isGoal realMath (scenario ℝ) (SteeringNode.mk 0 0 (Real.pi / 4) 0 true 0 0 .null)
      (goalNode ℝ) = false :=
  (C8_heading_tolerance (scenario ℝ) (SteeringNode.mk 0 0 (Real.pi / 4) 0 true 0 0 .null)
    (goalNode ℝ)).2 (Real.pi / 8) (by linarith [Real.pi_pos]) (by linarith [Real.pi_pos])
    (Or.inl (by simp only [SteeringNode.theta, goalNode]; ring))

/-- C9: from a parent driving forward with `custom = 0`, every backward action whose
resulting steering angle is non-zero is rejected with the cost `-1`. -/
theorem C9_switch_requires_zero_steering (M : MathOps α) (c : Config α)
    (reference : SteeringNode α) (i step : Int) (o : Out α) (mr : α)
    (hf : reference.forward = true) (_hc : reference.custom = 0)
    (hi : i = 3 ∨ i = 4 ∨ i = 5)
    (hr : resultingSteering c reference i step ≠ 0) :
    ∃ r, advance M c reference i step o mr = .ok r ∧ r.1 = -1 ∧ r.1 < 0 := by
  have hb : (reference.forward != decide (i < 3)) = true := by
    have : decide (i < 3) = false := by simp; omega
    rw [hf, this]; rfl
  obtain ⟨o1, h⟩ := advance_switch_rejected M c reference i step o mr hb
    (fun u hs => Or.inr (Or.inl (clampSteering_ne_zero c reference i step u hs hr)))
  exact ⟨(-1, o1), h, rfl, by norm_num⟩

/-- C9 (witness): `C9_switch_requires_zero_steering` at the backward right turn `i = 4`,
`step = 1` of a straight parent in the scenario, whose resulting angle is `-5`. -/
theorem C9_witness :
    ∃ r, advance realMath (scenario ℝ) (straightParent ℝ 24) 4 1 (out0 ℝ) 0 = .ok r ∧
      r.1 = -1 ∧ r.1 < 0 :=
  C9_switch_requires_zero_steering realMath (scenario ℝ) (straightParent ℝ 24) 4 1 (out0 ℝ) 0
    (by decide) (by decide) (by decide) (by decide)

/-- C10: with `max_steer ≥ 0`, every accepted edge has its output steering angle within
`±max_steer`, whatever the parent's own steering angle is; hence every steering angle that
the loop body of `iterateFreeNeighbors` assigns to a node lies within `±max_steer`. -/
theorem C10_steering_range {ν : Type} (M : MathOps α) (c : Config α)
    (reference : SteeringNode α) (hm : 0 ≤ c.max_steer) :
    (∀ (i step : Int) (o : Out α) (mr : α) (r : α × Out α),
      advance M c reference i step o mr = .ok r → 0 ≤ r.1 →
      -c.max_steer ≤ r.2.steering_angle_ ∧ r.2.steering_angle_ ≤ c.max_steer) ∧
    (∀ (map : MapOps α ν) (added : ν → α → Bool) (i step : Nat) (o : Out α)
      (n : ν) (w : NodeWrite α),
      neighborWrite M c map added reference i step o = .ok (some (n, w)) →
      -c.max_steer ≤ w.steering_angle ∧ w.steering_angle ≤ c.max_steer) := by
  have key : ∀ (i step : Int) (o : Out α) (mr : α) (r : α × Out α),
      advance M c reference i step o mr = .ok r → 0 ≤ r.1 →
      -c.max_steer ≤ r.2.steering_angle_ ∧ r.2.steering_angle_ ≤ c.max_steer := by
    intro i step o mr r h hr
    rcases advance_ok_cases M c reference i step o mr r h with h1 | ⟨u, _, _, _, rfl⟩
    · rw [h1] at hr
      exact absurd hr (by norm_num)
    · exact clampSteering_range c u hm
  refine ⟨key, ?_⟩
  intro map added i step o n w h
  unfold neighborWrite at h
  rcases hadv : advance M c reference (i : Int) (step : Int) o map.rotation with e | ⟨cost, out⟩
  · simp only [hadv] at h
    cases h
  · simp only [hadv] at h
    by_cases hneg : cost < 0
    · simp [hneg] at h
    · simp only [if_neg hneg] at h
      split_ifs at h
      all_goals try (exfalso; simp at h)
      split at h
      · simp at h
      · split_ifs at h
        · simp only [Except.ok.injEq, Option.some.injEq, Prod.mk.injEq] at h
          obtain ⟨_, rfl⟩ := h
          exact key _ _ o map.rotation (cost, out) hadv (not_lt.mp hneg)
        · simp at h

/-- C10 (witness): `C10_steering_range` at the right turn of `lockedParent` in the
scenario, whose output angle is `-5`, for `advance` and for the value the loop body
assigns on the open map. -/
theorem C10_witness :
    0 ≤ (scenario ℝ).max_steer ∧
    (-(scenario ℝ).max_steer ≤
        (finish realMath (scenario ℝ) (lockedParent ℝ) true (-5) false 1).2.steering_angle_ ∧
      (finish realMath (scenario ℝ) (lockedParent ℝ) true (-5) false 1).2.steering_angle_ ≤
        (scenario ℝ).max_steer) ∧
    (∃ w, neighborWrite realMath (scenario ℝ) (openMap ℝ) (fun _ _ => true)
        (lockedParent ℝ) 1 1 (out0 ℝ) = .ok (some (7, w)) ∧
      -(scenario ℝ).max_steer ≤ w.steering_angle ∧
      w.steering_angle ≤ (scenario ℝ).max_steer) :=
  ⟨by decide,
    (C10_steering_range realMath (scenario ℝ) (lockedParent ℝ) (by decide)
      (ν := Nat)).1 1 1 (out0 ℝ) 0 _ advance_lockedParent_right
      (by rw [finish_cost]; simp [scenario]),
    neighborWrite_lockedParent_right.elim fun w hw =>
      ⟨w, hw.1, (C10_steering_range realMath (scenario ℝ) (lockedParent ℝ)
        (by decide)).2 _ _ 1 1 (out0 ℝ) 7 w hw.1⟩⟩

/-- C11 (code at the failing input): `lockedParent` satisfies the node invariants in the
scenario (steering 0 within `±30`, `0 ≤ custom = 2 ≤ 24`, zero steering while locked), yet
its right turn `i = 1`, `step = 1` is accepted with output `custom = 1 > 0` and output
steering angle `-5`: the edge produces a locked node that steers, so `advance` does not
preserve the invariant. -/
theorem C11_locked_child_steers :
    (-(scenario ℝ).max_steer ≤ (lockedParent ℝ).steering_angle ∧
      (lockedParent ℝ).steering_angle ≤ (scenario ℝ).max_steer) ∧
    (0 ≤ (lockedParent ℝ).custom ∧
      (lockedParent ℝ).custom ≤ (scenario ℝ).straight_dir_switch - 1) ∧
    ((lockedParent ℝ).custom > 0 → (lockedParent ℝ).steering_angle = 0) ∧
    ∃ r, advance realMath (scenario ℝ) (lockedParent ℝ) 1 1 (out0 ℝ) 0 = .ok r ∧
      0 ≤ r.1 ∧ r.2.custom > 0 ∧ r.2.steering_angle_ ≠ 0 := by
  refine ⟨by decide, by decide, by decide, _, advance_lockedParent_right, ?_, ?_, ?_⟩
  · rw [advance_lockedParent_right_fields.1]; norm_num
  · rw [advance_lockedParent_right_fields.2.1]; decide
  · rw [advance_lockedParent_right_fields.2.2]; decide

/-- C12 (counterexample): in the reversed scenario the keep action `i = 0` on a straight
forward-driving parent is accepted with `forward_ = true`, which is `(i < 3)` and not its
negation. -/
theorem C12_counterexample :
    (scenarioReversed ℝ).reversed = true ∧
    ∃ r, advance realMath (scenarioReversed ℝ) (straightParent ℝ 24) 0 0 (out0 ℝ) 0 = .ok r ∧
      r.1 = 10 ∧ r.2.forward_ = true ∧ r.2.forward_ ≠ !decide ((0 : Int) < 3) := by
  refine ⟨rfl, _, advance_reversed_forward, ?_, rfl, by decide⟩
  rw [finish_cost]
  simp [scenarioReversed, scenario]

/-- C12 (amended): for every accepted edge the output flag `forward_` is `(i < 3)`, with
`reversed` set or not; `reversed` inverts the sign of travel of the pose update instead
(shown for a zero steering angle). A direction switch is detected exactly when `(i < 3)`
differs from the parent's `forward`: then and only then the cost carries the factor 4 and
`custom` is set from `straight_dir_switch - 1`. -/
theorem C12_direction_flag (M : MathOps α) (c : Config α)
    (reference : SteeringNode α) (i step : Int) (o : Out α) (mr : α) (r : α × Out α)
    (h : advance M c reference i step o mr = .ok r) (hr : 0 ≤ r.1) :
    r.2.forward_ = decide (i < 3) ∧
    r.1 = c.distance_step_pixel * (if decide (i < 3) = false then 2.5 else 1) *
      (if decide (i < 3) ≠ reference.forward then 4 else 1) ∧
    r.2.custom = (if decide (i < 3) ≠ reference.forward then toChar (c.straight_dir_switch - 1)
      else if reference.custom > 0 then toChar (reference.custom - 1) else 0) ∧
    (r.2.steering_angle_ = 0 →
      r.2.x_ = reference.x +
        c.distance_step_pixel * travelSign c (decide (i < 3)) * M.cos reference.theta ∧
      r.2.y_ = reference.y +
        c.distance_step_pixel * travelSign c (decide (i < 3)) * M.sin reference.theta) := by
  obtain ⟨u, _, _, _, rfl⟩ := advance_accepted M c reference i step o mr r h hr
  refine ⟨rfl, ?_, ?_, ?_⟩
  · rw [finish_cost]
    cases hf : reference.forward <;> cases hd : decide (i < 3) <;> simp
  · show (if (reference.forward != decide (i < 3)) = true
        then toChar (c.straight_dir_switch - 1)
        else if reference.custom > 0 then toChar (reference.custom - 1) else 0) = _
    cases hf : reference.forward <;> cases hd : decide (i < 3) <;> simp
  · intro h0
    have h0' : clampSteering c u = 0 := h0
    rw [h0']
    exact ⟨(finish_straight M c reference _ _ _).1, (finish_straight M c reference _ _ _).2.1⟩

/-- C12 (witness): `C12_direction_flag` at the keep action `i = 0` of the reversed
scenario on a straight forward-driving parent: the flag is `true` and the step leads
10 cells backwards along the heading. -/
theorem C12_witness :
    (finish realMath (scenarioReversed ℝ) (straightParent ℝ 24) true 0 false 0).2.forward_ =
      decide ((0 : Int) < 3) :=
  (C12_direction_flag realMath (scenarioReversed ℝ) (straightParent ℝ 24) 0 0 (out0 ℝ) 0 _
    advance_reversed_forward (by rw [finish_cost]; simp [scenarioReversed, scenario])).1

/-- C13 (counterexample): in the scenario (`straight_dir_switch - 1 = 24`) the node
`firstChild` has one predecessor, the root, whose `prev` is absent. The backward keep
action `i = 3` is a direction switch with zero steering on an unlocked parent, the
run-in walk meets the absent predecessor at its second step, and `advance` returns the
cost `-1` instead of raising. -/
theorem C13_counterexample :
    ancestor 1 (firstChild ℝ).prev = .null ∧
    advance realMath (scenario ℝ) (firstChild ℝ) 3 0 (out0 ℝ) 0 =
      .ok (-1, { out0 ℝ with forward_ := false, steering_angle_ := 0 }) := by
  exact ⟨rfl, rfl⟩

/-- C13 (amended): when a direction-switching action makes the run-in check walk the
predecessor chain and one of the `straight_dir_switch - 1` ancestors is absent, `advance`
returns the rejection cost `-1`. `advance` raises only if one of those ancestors is an
object that is not of the node type, and it does raise when a direction switch with zero
steering on an unlocked non-root parent meets such an object after straight nodes only. -/
theorem C13_absent_predecessor_rejects (M : MathOps α) (c : Config α)
    (reference : SteeringNode α) (i step : Int) (o : Out α) (mr : α)
    (hb : decide (i < 3) ≠ reference.forward) :
    ((∃ j : Nat, (j : Int) < c.straight_dir_switch - 1 ∧
        ancestor j reference.prev = .null) →
      ∃ o1, advance M c reference i step o mr = .ok (-1, o1)) ∧
    (∀ e, advance M c reference i step o mr = .error e →
      ∃ j : Nat, (j : Int) < c.straight_dir_switch - 1 ∧
        ∃ x y, ancestor j reference.prev = .other x y) ∧
    (1 ≤ reference.depth → reference.custom ≤ 0 →
      (∃ u, selectSteering c reference i step = some u ∧ clampSteering c u = 0) →
      (∃ j : Nat, (j : Int) < c.straight_dir_switch - 1 ∧
        (∃ x y, ancestor j reference.prev = .other x y) ∧
        ∀ j2 : Nat, j2 < j →
          ∃ a, ancestor j2 reference.prev = .node a ∧ a.steering_angle = 0) →
      advance M c reference i step o mr = .error "cannot cast prev") := by
  refine ⟨?_, ?_, ?_⟩
  · rintro ⟨j, hj, hnull⟩
    apply advance_switch_rejected M c reference i step o mr
      ((bne_eq_true_iff_ne _ _).mpr hb)
    intro u _
    right; right
    exact straightRunIn_rejected_of_null _ _ j (by omega) hnull
  · intro e he
    obtain ⟨j, hj, x, y, hxy⟩ := straightRunIn_castFailed _ _
      (advance_error M c reference i step o mr e he)
    exact ⟨j, by omega, x, y, hxy⟩
  · rintro hdepth hcu ⟨u, hs, hu⟩ ⟨j, hj, hother, hbefore⟩
    exact advance_throws M c reference i step o mr u hdepth hcu hs hu
      ((bne_eq_true_iff_ne _ _).mpr hb)
      (straightRunIn_castFailed_of_other _ _ j (by omega) hother hbefore)

/-- C13 (witness): `C13_absent_predecessor_rejects` at the backward keep action of
`firstChild` in the scenario, whose second ancestor is absent (cost `-1`), and of
`foreignParent`, whose predecessor is not of the node type (exception). -/
theorem C13_witness :
    decide ((3 : Int) < 3) ≠ (firstChild ℝ).forward ∧
    (∃ o1, advance realMath (scenario ℝ) (firstChild ℝ) 3 0 (out0 ℝ) 0 = .ok (-1, o1)) ∧
    advance realMath (scenario ℝ) (foreignParent ℝ) 3 0 (out0 ℝ) 0 =
      .error "cannot cast prev" :=
  ⟨by decide,
    (C13_absent_predecessor_rejects realMath (scenario ℝ) (firstChild ℝ) 3 0 (out0 ℝ) 0
      (by decide)).1 ⟨1, by decide, rfl⟩,
    (C13_absent_predecessor_rejects realMath (scenario ℝ) (foreignParent ℝ) 3 0 (out0 ℝ) 0
      (by decide)).2.2 (by decide) (by decide) ⟨0, rfl, rfl⟩
      ⟨0, by decide, ⟨0, 0, rfl⟩, fun j2 hj2 => absurd hj2 (Nat.not_lt_zero j2)⟩⟩

/-- C14 (counterexample): `steepParent` is a non-root parent with `custom = 0` whose
stored steering angle 40 exceeds `max_steer = 30`; its keep action `i = 0`, `step = 0` is
accepted with the output steering angle 30, not the parent's angle 40 that the rule
proposes. -/
theorem C14_counterexample :
    (steepParent ℝ).depth ≥ 1 ∧ (steepParent ℝ).custom = 0 ∧
    proposedSteering (scenario ℝ) (steepParent ℝ) 0 0 = 40 ∧
    ∃ r, advance realMath (scenario ℝ) (steepParent ℝ) 0 0 (out0 ℝ) 0 = .ok r ∧
      r.1 = 10 ∧ r.2.steering_angle_ = 30 := by
  refine ⟨by decide, by decide, by decide, _, advance_steepParent_keep, ?_, rfl⟩
  rw [finish_cost]
  simp [scenario]

/-- C14 (amended): for `steer_step_deg ≥ 0`, a parent whose steering angle lies within
`±max_steer`, `i` in `0..5` and `step ≥ 0`: keep actions are rejected when `step > 0`,
right actions when `step = 0` or the parent's angle is at most `-max_steer`, left actions
when `step = 0` or the parent's angle is at least `max_steer`; and every accepted edge has
as output steering angle the proposed one: the parent's angle for keep,
`max(angle - steer_step_deg * step, -max_steer)` for right and
`min(angle + steer_step_deg * step, max_steer)` for left. The depth and `custom` of the
parent play no part. -/
theorem C14_steering_selection (M : MathOps α) (c : Config α)
    (reference : SteeringNode α) (i step : Int) (o : Out α) (mr : α)
    (hi : 0 ≤ i ∧ i ≤ 5) (hstep : 0 ≤ step) (hdeg : 0 ≤ c.steer_step_deg)
    (hrange : -c.max_steer ≤ reference.steering_angle ∧
      reference.steering_angle ≤ c.max_steer) :
    ((i = 0 ∨ i = 3) → step > 0 → advance M c reference i step o mr = .ok (-1, o)) ∧
    ((i = 1 ∨ i = 4) → (step = 0 ∨ reference.steering_angle ≤ -c.max_steer) →
      advance M c reference i step o mr = .ok (-1, o)) ∧
    ((i = 2 ∨ i = 5) → (step = 0 ∨ reference.steering_angle ≥ c.max_steer) →
      advance M c reference i step o mr = .ok (-1, o)) ∧
    (∀ r, advance M c reference i step o mr = .ok r → 0 ≤ r.1 →
      r.2.steering_angle_ = proposedSteering c reference i step) := by
  refine ⟨?_, ?_, ?_, ?_⟩
  · intro hk hs
    apply advance_select_none
    unfold selectSteering
    have h1 : ¬ (i = 1 ∨ i = 4) := by omega
    have h2 : ¬ (i = 2 ∨ i = 5) := by omega
    simp only [if_neg h1, if_neg h2, if_pos hs]
  · intro hk hs
    apply advance_select_none
    unfold selectSteering MAX_STEER_ANGLE STEER_ANGLE
    simp only [if_pos hk]
    split_ifs <;> first | rfl | omega
  · intro hk hs
    apply advance_select_none
    unfold selectSteering MAX_STEER_ANGLE STEER_ANGLE
    have h1 : ¬ (i = 1 ∨ i = 4) := by omega
    simp only [if_neg h1, if_pos hk]
    split_ifs <;> first | rfl | omega
  · intro r h hr
    obtain ⟨u, hs, _, _, rfl⟩ := advance_accepted M c reference i step o mr r h hr
    show clampSteering c u = _
    have hmul : 0 ≤ c.steer_step_deg * step := Int.mul_nonneg hdeg hstep
    unfold selectSteering MAX_STEER_ANGLE STEER_ANGLE STEER_DELTA at hs
    unfold clampSteering proposedSteering MAX_STEER_ANGLE STEER_ANGLE
    generalize c.steer_step_deg * step = delta at hs hmul ⊢
    split_ifs at hs <;> simp only [Option.some.injEq] at hs <;> subst hs <;>
      simp only [*, if_true, if_false] <;> split_ifs <;> omega

/-- C14 (witness): `C14_steering_selection` at the forward right turn `i = 1`, `step = 1`
of `firstChild` in the scenario: the output angle is `max(0 - 5, -30) = -5`. -/
theorem C14_witness :
    (0 ≤ (1 : Int) ∧ (1 : Int) ≤ 5) ∧ 0 ≤ (scenario ℝ).steer_step_deg ∧
    (finish realMath (scenario ℝ) (firstChild ℝ) true (-5) false 0).2.steering_angle_ =
      proposedSteering (scenario ℝ) (firstChild ℝ) 1 1 :=
  ⟨by decide, by decide,
    (C14_steering_selection realMath (scenario ℝ) (firstChild ℝ) 1 1 (out0 ℝ) 0
      (by decide) (by decide) (by decide) (by decide)).2.2.2 _ advance_firstChild_right
      (by rw [finish_cost]; simp [scenario])⟩

/-- C15: for a parent whose `custom` lies in the range of `char`, the type of the variable
through which the field is written, every accepted edge whose `forward_` equals the
parent's `forward` has output `custom = max(parent.custom - 1, 0)`. -/
theorem C15_lock_countdown (M : MathOps α) (c : Config α)
    (reference : SteeringNode α) (i step : Int) (o : Out α) (mr : α) (r : α × Out α)
    (hchar : -128 ≤ reference.custom ∧ reference.custom ≤ 127)
    (h : advance M c reference i step o mr = .ok r) (hr : 0 ≤ r.1)
    (hsame : r.2.forward_ = reference.forward) :
    r.2.custom = max (reference.custom - 1) 0 := by
  obtain ⟨u, _, _, _, rfl⟩ := advance_accepted M c reference i step o mr r h hr
  have hb : ¬ (reference.forward != decide (i < 3)) = true := by
    intro hb
    exact (bne_eq_true_iff_ne _ _).mp hb hsame
  show (if (reference.forward != decide (i < 3)) = true
      then toChar (c.straight_dir_switch - 1)
      else if reference.custom > 0 then toChar (reference.custom - 1) else 0) = _
  rw [if_neg hb]
  split_ifs with hc
  · rw [toChar_eq_self _ (by omega)]
    omega
  · omega

/-- C15 (witness): `C15_lock_countdown` at the right turn of `lockedParent`
(`custom = 2`) in the scenario, whose output `custom` is 1. -/
theorem C15_witness :
    (-128 ≤ (lockedParent ℝ).custom ∧ (lockedParent ℝ).custom ≤ 127) ∧
    (finish realMath (scenario ℝ) (lockedParent ℝ) true (-5) false 1).2.custom =
      max ((lockedParent ℝ).custom - 1) 0 :=
  ⟨by decide,
    C15_lock_countdown realMath (scenario ℝ) (lockedParent ℝ) 1 1 (out0 ℝ) 0 _ (by decide)
      advance_lockedParent_right (by rw [finish_cost]; simp [scenario]) rfl⟩

/-- C16 (counterexample): in the scenario (not reversed, `resolution = 0.1`) the goal
`nearGoal` lies 0.097 map units ahead of `creepingNode`, whose predecessor lies 0.005 map
units behind it. The heading, lock and box tests pass and the point distance is above
0.05; the distance from the goal to the segment is 0.097, below 0.1, but the segment is
shorter than 0.01, `isGoal` measures the distance 0.102 to the predecessor and returns
false. -/
theorem C16_counterexample :
    (creepingNode ℝ).prev.pos = some (-0.05, 0) ∧
    ¬ (realMath.hypot ((effectiveGoal realMath (scenario ℝ) (nearGoal ℝ) (creepingNode ℝ)).1 -
          (creepingNode ℝ).x)
        ((effectiveGoal realMath (scenario ℝ) (nearGoal ℝ) (creepingNode ℝ)).2 -
          (creepingNode ℝ).y) * (scenario ℝ).resolution < 0.05) ∧
    segmentDistance realMath (scaledPoint (scenario ℝ) (-0.05, 0))
        (scaledPoint (scenario ℝ) ((creepingNode ℝ).x, (creepingNode ℝ).y))
        (scaledPoint (scenario ℝ)
          (effectiveGoal realMath (scenario ℝ) (nearGoal ℝ) (creepingNode ℝ))) < 0.1 ∧
    isGoal realMath (scenario ℝ) (nearGoal ℝ) (creepingNode ℝ) = false := by
  have hG : effectiveGoal realMath (scenario ℝ) (nearGoal ℝ) (creepingNode ℝ) = (0.97, 0) := by
    simp [effectiveGoal, scenario, nearGoal, SteeringNode.x, SteeringNode.y]
  have hx : (creepingNode ℝ).x = 0 := rfl
  have hy : (creepingNode ℝ).y = 0 := rfl
  have hres : (scenario ℝ).resolution = 0.1 := rfl
  have hprev : (creepingNode ℝ).prev.pos = some (-0.05, 0) := rfl
  have hhyp : realMath.hypot (0.97 - 0) (0 - 0) = 0.97 := by
    show Real.sqrt ((0.97 - 0) * (0.97 - 0) + (0 - 0) * (0 - 0)) = 0.97
    rw [sub_zero, sub_zero, mul_zero, add_zero, Real.sqrt_mul_self (by norm_num)]
  have hsqrt : realMath.sqrt = Real.sqrt := rfl
  refine ⟨hprev, ?_, ?_, ?_⟩
  · rw [hG, hx, hy, hres, hhyp]
    norm_num
  · rw [hG, hx, hy]
    unfold segmentDistance segmentLength2 segmentPoint pointDistance scaledPoint
    simp only [hres]
    rw [hsqrt, Real.sqrt_lt' (by norm_num)]
    norm_num [min_def, max_def]
  · have h0 : realMath.atan2 (realMath.sin 0) (realMath.cos 0) = 0 :=
      realMath_atan2_sin_cos 0 ⟨by linarith [Real.pi_pos], Real.pi_pos.le⟩
    have hth : (nearGoal ℝ).theta - (creepingNode ℝ).theta = 0 := by
      simp [nearGoal, creepingNode, SteeringNode.theta]
    have hpi : ¬ |(0 : ℝ)| > realMath.pi / 8 := by
      show ¬ |(0 : ℝ)| > Real.pi / 8
      rw [abs_zero]
      linarith [Real.pi_pos]
    have hl : ¬ ((scenario ℝ).reversed = true ∧ (creepingNode ℝ).custom > 0) := by decide
    have hbox : ¬ (|((0.97, 0) : ℝ × ℝ).1 - 0| > ((4 * (scenario ℝ).distance : Int) : ℝ) ∨
        |((0.97, 0) : ℝ × ℝ).2 - 0| > ((4 * (scenario ℝ).distance : Int) : ℝ)) := by
      norm_num [scenario]
      rw [abs_of_pos (by norm_num)]
      norm_num
    have hnear : ¬ (realMath.hypot (((0.97, 0) : ℝ × ℝ).1 - 0) (((0.97, 0) : ℝ × ℝ).2 - 0) *
        0.1 < 0.05) := by
      show ¬ (realMath.hypot (0.97 - 0) (0 - 0) * 0.1 < 0.05)
      rw [hhyp]
      norm_num
    have hseg : segmentLength2 (scaledPoint (scenario ℝ) (-0.05, 0))
        (scaledPoint (scenario ℝ) (0, 0)) ≤ 0.0001 := by
      norm_num [segmentLength2, scaledPoint, scenario]
    have hpd : ¬ (pointDistance realMath (scaledPoint (scenario ℝ) (0.97, 0))
        (scaledPoint (scenario ℝ) (-0.05, 0)) < 0.1) := by
      unfold pointDistance scaledPoint
      rw [hsqrt, Real.sqrt_lt' (by norm_num)]
      norm_num [scenario]
    rw [isGoal_eq, hG, hprev, hx, hy, hres, hth, h0, if_neg hpi, if_neg hl, if_neg hbox,
      if_neg hnear]
    simp only [if_pos hseg]
    exact decide_eq_false hpd

/-- C16 (amended): for a reference node that passed the heading test, the lock test of the
reversed search and the bounding box, and whose scaled distance to the effective goal is
not below 0.05: with a predecessor at `prev` and a scaled segment of squared length above
0.0001, `isGoal` returns true exactly when the distance from the scaled effective goal to
the closed segment (projection parameter clamped to `[0, 1]`) is below 0.1; with a
predecessor and a squared length of at most 0.0001, exactly when the distance to the
scaled predecessor position is below 0.1; without predecessor, `isGoal` returns false. -/
theorem C16_goal_segment_test (M : MathOps α) (c : Config α) (goal reference : SteeringNode α)
    (hhead : ¬ |M.atan2 (M.sin (goal.theta - reference.theta))
        (M.cos (goal.theta - reference.theta))| > M.pi / 8)
    (hlock : ¬ (c.reversed = true ∧ reference.custom > 0))
    (hbox : ¬ (|(effectiveGoal M c goal reference).1 - reference.x| >
          ((4 * c.distance : Int) : α) ∨
        |(effectiveGoal M c goal reference).2 - reference.y| > ((4 * c.distance : Int) : α)))
    (hfar : ¬ (M.hypot ((effectiveGoal M c goal reference).1 - reference.x)
        ((effectiveGoal M c goal reference).2 - reference.y) * c.resolution < 0.05)) :
    (∀ prev, reference.prev.pos = some prev →
      (0.0001 < segmentLength2 (scaledPoint c prev)
          (scaledPoint c (reference.x, reference.y)) →
        (isGoal M c goal reference = true ↔
          segmentDistance M (scaledPoint c prev) (scaledPoint c (reference.x, reference.y))
            (scaledPoint c (effectiveGoal M c goal reference)) < 0.1)) ∧
      (segmentLength2 (scaledPoint c prev)
          (scaledPoint c (reference.x, reference.y)) ≤ 0.0001 →
        (isGoal M c goal reference = true ↔
          pointDistance M (scaledPoint c (effectiveGoal M c goal reference))
            (scaledPoint c prev) < 0.1))) ∧
    (reference.prev.pos = none → isGoal M c goal reference = false) := by
  rw [isGoal_eq, if_neg hhead, if_neg hlock, if_neg hbox, if_neg hfar]
  refine ⟨?_, ?_⟩
  · intro prev hprev
    rw [hprev]
    refine ⟨?_, ?_⟩
    · intro hl
      simp only [if_neg (not_le.mpr hl), decide_eq_true_eq]
    · intro hl
      simp only [if_pos hl, decide_eq_true_eq]
  · intro hprev
    rw [hprev]

/-- C16 (witness): in the scenario the goal `midGoal` passes the first four tests against
`firstChild`, whose predecessor is the root: the scaled segment has squared length 1, and
`isGoal` returns true, the distance from the goal to the segment being 0. -/
theorem C16_witness :
    (firstChild ℝ).prev.pos = some (0, 0) ∧
    isGoal realMath (scenario ℝ) (midGoal ℝ) (firstChild ℝ) = true ∧
    segmentDistance realMath (scaledPoint (scenario ℝ) (0, 0))
      (scaledPoint (scenario ℝ) ((firstChild ℝ).x, (firstChild ℝ).y))
      (scaledPoint (scenario ℝ)
        (effectiveGoal realMath (scenario ℝ) (midGoal ℝ) (firstChild ℝ))) < 0.1 :=
  ⟨rfl, isGoal_midGoal,
    (((C16_goal_segment_test realMath (scenario ℝ) (midGoal ℝ) (firstChild ℝ)
      isGoal_midGoal_tests.1 isGoal_midGoal_tests.2.1 isGoal_midGoal_tests.2.2.1
      isGoal_midGoal_tests.2.2.2).1 (0, 0) rfl).1
      (by norm_num [segmentLength2, scaledPoint, scenario, firstChild, SteeringNode.x,
        SteeringNode.y])).mp isGoal_midGoal⟩

/-- C17: the loop body of `iterateFreeNeighbors` for a pair `(i, step)` on which `advance`
returns `cost` and the outputs `out`. A candidate that `advance` rejects, that lies
outside the map, whose segment is not free-or-unknown, or for which `lookup` returns null
leaves the node store and the driver state as they are (it is not passed to
`processNeighbor`). A candidate node `n` obtained from `lookup` is passed to
`processNeighbor`; on the verdict `PR_ADDED_TO_OPEN_LIST` its fields become the outputs of
`advance` with `depth = reference.depth + 1` and no other node changes; on any other
verdict the node store is unchanged. -/
theorem C17_two_phase_update {ν σ : Type} [DecidableEq ν] (M : MathOps α) (c : Config α)
    (map : MapOps α ν) (algo : Driver α ν σ) (reference : SteeringNode α) (i step : Nat)
    (o : Out α) (st : NodeStore α ν) (s : σ) (cost : α) (out : Out α)
    (hadv : advance M c reference (i : Int) (step : Int) o map.rotation = .ok (cost, out)) :
    ((cost < 0 ∨ map.contains out.x_ out.y_ = false ∨
        map.isFreeOrUnknown reference.x reference.y out.x_ out.y_ = false ∨
        map.lookup out.x_ out.y_ out.theta_ out.steering_angle_ out.forward_ = none) →
      neighborStep M c map algo reference i step o st s = .ok (st, s)) ∧
    (∀ n : ν, 0 ≤ cost → map.contains out.x_ out.y_ = true →
      map.isFreeOrUnknown reference.x reference.y out.x_ out.y_ = true →
      map.lookup out.x_ out.y_ out.theta_ out.steering_angle_ out.forward_ = some n →
      (∀ s1, algo.processNeighbor s reference n cost = (.PR_ADDED_TO_OPEN_LIST, s1) →
        ∃ st1, neighborStep M c map algo reference i step o st s = .ok (st1, s1) ∧
          st1 n = { custom := out.custom, depth := reference.depth + 1,
                    steering_angle := out.steering_angle_, x := out.x_, y := out.y_,
                    theta := out.theta_, forward := out.forward_ } ∧
          ∀ m, m ≠ n → st1 m = st m) ∧
      (∀ v s1, algo.processNeighbor s reference n cost = (v, s1) →
        v ≠ .PR_ADDED_TO_OPEN_LIST →
        neighborStep M c map algo reference i step o st s = .ok (st, s1))) := by
  constructor
  · intro hrej
    unfold neighborStep
    rw [hadv]
    simp only
    by_cases hneg : cost < 0
    · rw [if_pos hneg]
    · rw [if_neg hneg]
      by_cases hc : map.contains out.x_ out.y_ = true
      · rw [if_pos hc]
        by_cases hf : map.isFreeOrUnknown reference.x reference.y out.x_ out.y_ = true
        · rw [if_pos hf]
          rcases hrej with h | h | h | h
          · exact absurd h hneg
          · rw [h] at hc; cases hc
          · rw [h] at hf; cases hf
          · rw [h]
        · rw [if_neg hf]
      · rw [if_neg hc]
  · intro n hcost hc hf hl
    have hneg : ¬ cost < 0 := not_lt.mpr hcost
    constructor
    · intro s1 hv
      have hstep : neighborStep M c map algo reference i step o st s =
          .ok (st.assign n (NodeWrite.mk out.custom (reference.depth + 1) out.steering_angle_
            out.x_ out.y_ out.theta_ out.forward_), s1) := by
        unfold neighborStep
        rw [hadv]
        simp only [if_neg hneg, if_pos hc, if_pos hf, hl, hv]
      refine ⟨_, hstep, ?_, ?_⟩
      · simp [NodeStore.assign]
      · intro m hm
        simp [NodeStore.assign, hm]
    · intro v s1 hv hne
      cases v with
      | PR_ADDED_TO_OPEN_LIST => exact absurd rfl hne
      | PR_OTHER =>
        unfold neighborStep
        rw [hadv]
        simp only [if_neg hneg, if_pos hc, if_pos hf, hl, hv]

/-- C17 (witness): `C17_two_phase_update` at the right turn of `lockedParent` on the open
map, which hands out node 7, with the driver that adds every candidate: node 7 receives
the outputs of `advance` and depth `3 + 1`, and the driver has been called once. -/
theorem C17_witness :
    ∃ st1, neighborStep realMath (scenario ℝ) (openMap ℝ) (countingDriver ℝ) (lockedParent ℝ)
        1 1 (out0 ℝ) (emptyStore ℝ) 0 = .ok (st1, 1) ∧
      st1 7 =
        { custom := (finish realMath (scenario ℝ) (lockedParent ℝ) true (-5) false 1).2.custom,
          depth := (lockedParent ℝ).depth + 1,
          steering_angle :=
            (finish realMath (scenario ℝ) (lockedParent ℝ) true (-5) false 1).2.steering_angle_,
          x := (finish realMath (scenario ℝ) (lockedParent ℝ) true (-5) false 1).2.x_,
          y := (finish realMath (scenario ℝ) (lockedParent ℝ) true (-5) false 1).2.y_,
          theta := (finish realMath (scenario ℝ) (lockedParent ℝ) true (-5) false 1).2.theta_,
          forward :=
            (finish realMath (scenario ℝ) (lockedParent ℝ) true (-5) false 1).2.forward_ } ∧
      ∀ m, m ≠ 7 → st1 m = emptyStore ℝ m :=
  ((C17_two_phase_update realMath (scenario ℝ) (openMap ℝ) (countingDriver ℝ) (lockedParent ℝ)
    1 1 (out0 ℝ) (emptyStore ℝ) 0 _ _ advance_lockedParent_right_open).2 7
    (by rw [finish_cost]; simp [scenario]) rfl rfl rfl).1 1 rfl

/-- C18 (counterexample): with `la = 4` and `distance = 10` the default
`straight_dir_switch = round(0.4)` is 0. The unlocked node `firstChild`
(`0 ≤ custom = 0 ≤ max(0 - 1, 0)`) switches direction with the backward keep action
`i = 3`; the edge is accepted with cost 100 and output `custom = -1`. -/
theorem C18_counterexample :
    (scenarioShortLA ℝ).straight_dir_switch = 0 ∧
    (0 ≤ (firstChild ℝ).custom ∧
      (firstChild ℝ).custom ≤ max ((scenarioShortLA ℝ).straight_dir_switch - 1) 0) ∧
    ∃ r, advance realMath (scenarioShortLA ℝ) (firstChild ℝ) 3 0 (out0 ℝ) 0 = .ok r ∧
      r.1 = 100 ∧ r.2.custom = -1 := by
  have hk : (scenarioShortLA ℝ) = { scenario ℝ with la := 4, straight_dir_switch := 0 } := by
    unfold scenarioShortLA
    rw [defaultStraightDirSwitch_values.2]
  rw [hk]
  refine ⟨rfl, by decide, _, advance_shortLA_backward, ?_, rfl⟩
  rw [finish_cost]
  simp [scenario]
  norm_num

/-- C18 (amended): for `1 ≤ straight_dir_switch ≤ 128`, so that `straight_dir_switch - 1`
is a non-negative `char`, and a parent with `0 ≤ custom ≤ max(straight_dir_switch - 1, 0)`,
every accepted edge has an output `custom` that is non-negative and at most
`max(straight_dir_switch - 1, 0)`. -/
theorem C18_lock_counter_range (M : MathOps α) (c : Config α)
    (reference : SteeringNode α) (i step : Int) (o : Out α) (mr : α) (r : α × Out α)
    (hk : 1 ≤ c.straight_dir_switch ∧ c.straight_dir_switch ≤ 128)
    (hcu : 0 ≤ reference.custom ∧ reference.custom ≤ max (c.straight_dir_switch - 1) 0)
    (h : advance M c reference i step o mr = .ok r) (hr : 0 ≤ r.1) :
    0 ≤ r.2.custom ∧ r.2.custom ≤ max (c.straight_dir_switch - 1) 0 := by
  obtain ⟨u, _, _, _, rfl⟩ := advance_accepted M c reference i step o mr r h hr
  show 0 ≤ (if (reference.forward != decide (i < 3)) = true
      then toChar (c.straight_dir_switch - 1)
      else if reference.custom > 0 then toChar (reference.custom - 1) else 0) ∧
    (if (reference.forward != decide (i < 3)) = true
      then toChar (c.straight_dir_switch - 1)
      else if reference.custom > 0 then toChar (reference.custom - 1) else 0) ≤ _
  split_ifs with hb hc
  · rw [toChar_eq_self _ (by omega)]
    omega
  · rw [toChar_eq_self _ (by omega)]
    omega
  · omega

/-- C18 (witness): `C18_lock_counter_range` at the backward keep step of a straight parent
with 24 straight predecessors in the scenario (`straight_dir_switch = 25`), whose output
`custom` is 24. -/
theorem C18_witness :
    (1 ≤ (scenario ℝ).straight_dir_switch ∧ (scenario ℝ).straight_dir_switch ≤ 128) ∧
    (0 ≤ (finish realMath (scenario ℝ) (straightParent ℝ 24) false 0 true 24).2.custom ∧
      (finish realMath (scenario ℝ) (straightParent ℝ 24) false 0 true 24).2.custom ≤
        max ((scenario ℝ).straight_dir_switch - 1) 0) :=
  ⟨by decide,
    C18_lock_counter_range realMath (scenario ℝ) (straightParent ℝ 24) 3 0 (out0 ℝ) 0 _
      (by decide) (by decide) advance_straightParent_backward
      (by rw [finish_cost]; simp [scenario]; norm_num)⟩

/-- C19: over the reals with `resolution > 0`, when `isGoal` accepts a reference node that
has a predecessor at `prev`, some point of the closed segment between the scaled
predecessor position and the scaled reference position lies at Euclidean distance below
0.1 from the scaled effective goal: the reference position itself (`t = 1`) on the
point-distance path, the predecessor position (`t = 0`) for a segment with `l2 ≤ 0.0001`,
and the clamped projection otherwise. -/
theorem C19_goal_test_sound (c : Config ℝ) (goal reference : SteeringNode ℝ) (prev : ℝ × ℝ)
    (hres : 0 < c.resolution) (hprev : reference.prev.pos = some prev)
    (h : isGoal realMath c goal reference = true) :
    ∃ t : ℝ, 0 ≤ t ∧ t ≤ 1 ∧
      pointDistance realMath (scaledPoint c (effectiveGoal realMath c goal reference))
        (segmentPoint (scaledPoint c prev) (scaledPoint c (reference.x, reference.y)) t) <
          0.1 := by
  rw [isGoal_eq, hprev] at h
  split_ifs at h with h1 h2 h3 h4
  · refine ⟨1, zero_le_one, le_refl 1, ?_⟩
    have e : segmentPoint (scaledPoint c prev) (scaledPoint c (reference.x, reference.y)) 1 =
        scaledPoint c (reference.x, reference.y) := by
      simp [segmentPoint]
    rw [e, pointDistance_scaled c hres]
    exact lt_trans h4 (by norm_num)
  · simp only [decide_eq_true_eq] at h
    by_cases hl : segmentLength2 (scaledPoint c prev)
        (scaledPoint c (reference.x, reference.y)) ≤ 0.0001
    · rw [if_pos hl] at h
      refine ⟨0, le_refl 0, zero_le_one, ?_⟩
      have e : segmentPoint (scaledPoint c prev) (scaledPoint c (reference.x, reference.y)) 0 =
          scaledPoint c prev := by
        simp [segmentPoint]
      rw [e]
      exact h
    · rw [if_neg hl] at h
      exact ⟨_, le_max_left 0 _, max_le zero_le_one (min_le_left 1 _), h⟩

/-- C19 (witness): in the scenario (`resolution = 0.1`) the goal `midGoal` is accepted for
`firstChild`, whose predecessor is the root at the origin, and a point of the scaled
segment lies at distance below 0.1 from the scaled goal. -/
theorem C19_witness :
    (0 : ℝ) < (scenario ℝ).resolution ∧ (firstChild ℝ).prev.pos = some (0, 0) ∧
    isGoal realMath (scenario ℝ) (midGoal ℝ) (firstChild ℝ) = true ∧
    ∃ t : ℝ, 0 ≤ t ∧ t ≤ 1 ∧
      pointDistance realMath
        (scaledPoint (scenario ℝ) (effectiveGoal realMath (scenario ℝ) (midGoal ℝ) (firstChild ℝ)))
        (segmentPoint (scaledPoint (scenario ℝ) (0, 0))
          (scaledPoint (scenario ℝ) ((firstChild ℝ).x, (firstChild ℝ).y)) t) < 0.1 :=
  ⟨by norm_num [scenario], rfl, isGoal_midGoal,
    C19_goal_test_sound (scenario ℝ) (midGoal ℝ) (firstChild ℝ) (0, 0)
      (by norm_num [scenario]) rfl isGoal_midGoal⟩

/-- C20: over the reals, for every edge `advance` accepts, with `r` the turning radius in
cells, `dtheta` the heading change and `ctr = (x - r sin(theta), y + r cos(theta))` the
turning centre: for a non-zero steering angle the child position satisfies
`(x_, y_) - ctr = (r sin(theta + dtheta), -r cos(theta + dtheta))`, the parent and the
child lie at distance `|r|` from `ctr`, the heading `theta + dtheta` is orthogonal to the
radius at the child, and `theta_` is the normalised `theta + dtheta`; for a zero steering
angle the displacement is `distance_step_pixel * dir * (cos(theta), sin(theta))`, of length
`distance_step_pixel`, and `theta_` is the normalised `theta`. The identities are
algebraic in `r` and `dtheta` and hold for every `resolution`. -/
theorem C20_constant_curvature_step (c : Config ℝ) (reference : SteeringNode ℝ)
    (i step : Int) (o : Out ℝ) (mr : ℝ) (r : ℝ × Out ℝ)
    (h : advance realMath c reference i step o mr = .ok r) (hr : 0 ≤ r.1) :
    (r.2.steering_angle_ ≠ 0 →
      r.2.x_ - (turningCentre realMath c reference r.2.steering_angle_).1 =
        turningRadius realMath c r.2.steering_angle_ *
          Real.sin (reference.theta +
            headingChange realMath c r.2.steering_angle_ r.2.forward_) ∧
      r.2.y_ - (turningCentre realMath c reference r.2.steering_angle_).2 =
        -(turningRadius realMath c r.2.steering_angle_ *
          Real.cos (reference.theta +
            headingChange realMath c r.2.steering_angle_ r.2.forward_)) ∧
      realMath.hypot (reference.x - (turningCentre realMath c reference r.2.steering_angle_).1)
          (reference.y - (turningCentre realMath c reference r.2.steering_angle_).2) =
        |turningRadius realMath c r.2.steering_angle_| ∧
      realMath.hypot (r.2.x_ - (turningCentre realMath c reference r.2.steering_angle_).1)
          (r.2.y_ - (turningCentre realMath c reference r.2.steering_angle_).2) =
        |turningRadius realMath c r.2.steering_angle_| ∧
      (r.2.x_ - (turningCentre realMath c reference r.2.steering_angle_).1) *
          Real.cos (reference.theta +
            headingChange realMath c r.2.steering_angle_ r.2.forward_) +
        (r.2.y_ - (turningCentre realMath c reference r.2.steering_angle_).2) *
          Real.sin (reference.theta +
            headingChange realMath c r.2.steering_angle_ r.2.forward_) = 0 ∧
      r.2.theta_ = realMath.AngleClamp (reference.theta +
        headingChange realMath c r.2.steering_angle_ r.2.forward_)) ∧
    (r.2.steering_angle_ = 0 →
      r.2.x_ - reference.x =
        c.distance_step_pixel * travelSign c r.2.forward_ * Real.cos reference.theta ∧
      r.2.y_ - reference.y =
        c.distance_step_pixel * travelSign c r.2.forward_ * Real.sin reference.theta ∧
      realMath.hypot (r.2.x_ - reference.x) (r.2.y_ - reference.y) = c.distance_step_pixel ∧
      r.2.theta_ = realMath.AngleClamp (reference.theta + 0)) := by
  obtain ⟨u, -, -, -, rfl⟩ := advance_accepted realMath c reference i step o mr r h hr
  have hd := finish_cost_nonneg _ _ _ _ _ _ _ hr
  simp only [(finish_flags realMath c reference _ _ _ _).1,
    (finish_flags realMath c reference _ _ _ _).2]
  generalize clampSteering c u = sa
  generalize (reference.forward != decide (i < 3)) = d
  generalize (if d = true then toChar (c.straight_dir_switch - 1)
    else if reference.custom > 0 then toChar (reference.custom - 1) else 0) = cu
  generalize decide (i < 3) = f
  refine ⟨?_, ?_⟩
  · intro hsa
    obtain ⟨hx, hy, ht⟩ := finish_arc realMath c reference f sa d cu hsa
    have ex : (finish realMath c reference f sa d cu).2.x_ -
        (turningCentre realMath c reference sa).1 =
        turningRadius realMath c sa *
          Real.sin (reference.theta + headingChange realMath c sa f) := by
      rw [hx]
      show reference.x + turningRadius realMath c sa *
          (Real.sin (reference.theta + headingChange realMath c sa f) -
            Real.sin reference.theta) -
          (reference.x - turningRadius realMath c sa * Real.sin reference.theta) = _
      ring
    have ey : (finish realMath c reference f sa d cu).2.y_ -
        (turningCentre realMath c reference sa).2 =
        -(turningRadius realMath c sa *
          Real.cos (reference.theta + headingChange realMath c sa f)) := by
      rw [hy]
      show reference.y + turningRadius realMath c sa *
          (-Real.cos (reference.theta + headingChange realMath c sa f) +
            Real.cos reference.theta) -
          (reference.y + turningRadius realMath c sa * Real.cos reference.theta) = _
      ring
    have px : reference.x - (turningCentre realMath c reference sa).1 =
        turningRadius realMath c sa * Real.sin reference.theta := by
      show reference.x -
        (reference.x - turningRadius realMath c sa * Real.sin reference.theta) = _
      ring
    have py : reference.y - (turningCentre realMath c reference sa).2 =
        -(turningRadius realMath c sa * Real.cos reference.theta) := by
      show reference.y -
        (reference.y + turningRadius realMath c sa * Real.cos reference.theta) = _
      ring
    refine ⟨ex, ey, ?_, ?_, ?_, ht⟩
    · rw [px, py, hypot_circle]
    · rw [ex, ey, hypot_circle]
    · rw [ex, ey]
      ring
  · intro hsa
    subst hsa
    obtain ⟨hx, hy, ht⟩ := finish_straight realMath c reference f d cu
    have ex : (finish realMath c reference f 0 d cu).2.x_ - reference.x =
        c.distance_step_pixel * travelSign c f * Real.cos reference.theta := by
      rw [hx]
      show reference.x + c.distance_step_pixel * travelSign c f * Real.cos reference.theta -
        reference.x = _
      ring
    have ey : (finish realMath c reference f 0 d cu).2.y_ - reference.y =
        c.distance_step_pixel * travelSign c f * Real.sin reference.theta := by
      rw [hy]
      show reference.y + c.distance_step_pixel * travelSign c f * Real.sin reference.theta -
        reference.y = _
      ring
    refine ⟨ex, ey, ?_, ht⟩
    rw [ex, ey]
    show Real.sqrt (c.distance_step_pixel * travelSign c f * Real.cos reference.theta *
        (c.distance_step_pixel * travelSign c f * Real.cos reference.theta) +
      c.distance_step_pixel * travelSign c f * Real.sin reference.theta *
        (c.distance_step_pixel * travelSign c f * Real.sin reference.theta)) =
      c.distance_step_pixel
    have e : c.distance_step_pixel * travelSign c f * Real.cos reference.theta *
        (c.distance_step_pixel * travelSign c f * Real.cos reference.theta) +
      c.distance_step_pixel * travelSign c f * Real.sin reference.theta *
        (c.distance_step_pixel * travelSign c f * Real.sin reference.theta) =
      c.distance_step_pixel * c.distance_step_pixel := by
      have h1 := Real.sin_sq_add_cos_sq reference.theta
      have h2 := travelSign_mul_self c f
      have e1 : c.distance_step_pixel * travelSign c f * Real.cos reference.theta *
          (c.distance_step_pixel * travelSign c f * Real.cos reference.theta) +
        c.distance_step_pixel * travelSign c f * Real.sin reference.theta *
          (c.distance_step_pixel * travelSign c f * Real.sin reference.theta) =
        c.distance_step_pixel * c.distance_step_pixel * (travelSign c f * travelSign c f) *
          (Real.sin reference.theta ^ 2 + Real.cos reference.theta ^ 2) := by ring
      rw [e1, h1, h2, mul_one, mul_one]
    rw [e, Real.sqrt_mul_self hd]

/-- C20 (witness): the right turn `i = 1`, `step = 1` of `lockedParent` in the scenario is
accepted with steering angle `-5`; the child lies at distance `|r|` from the turning
centre, `r` being the turning radius for `-5` degrees. -/
theorem C20_witness :
    advance realMath (scenario ℝ) (lockedParent ℝ) 1 1 (out0 ℝ) 0 =
      .ok (finish realMath (scenario ℝ) (lockedParent ℝ) true (-5) false 1) ∧
    (0 : ℝ) ≤ (finish realMath (scenario ℝ) (lockedParent ℝ) true (-5) false 1).1 ∧
    realMath.hypot
        ((finish realMath (scenario ℝ) (lockedParent ℝ) true (-5) false 1).2.x_ -
          (turningCentre realMath (scenario ℝ) (lockedParent ℝ) (-5)).1)
        ((finish realMath (scenario ℝ) (lockedParent ℝ) true (-5) false 1).2.y_ -
          (turningCentre realMath (scenario ℝ) (lockedParent ℝ) (-5)).2) =
      |turningRadius realMath (scenario ℝ) (-5)| :=
  ⟨advance_lockedParent_right, by rw [finish_cost]; simp [scenario],
    ((C20_constant_curvature_step (scenario ℝ) (lockedParent ℝ) 1 1 (out0 ℝ) 0 _
      advance_lockedParent_right (by rw [finish_cost]; simp [scenario])).1
      (by decide)).2.2.2.1⟩

end SteeringNeighborhood

end lib_path
